import Mathlib

/-!
# Prefetching data layers (`src/caffe/layers/base_data_layer.cpp`)

A shallow embedding of `BaseDataLayer`, `BasePrefetchingDataLayer` and
`BasePrefetchingSparseDataLayer`.

* Pointers into the pool arrays (`&prefetch_[i]`) are pool indices `i : Nat`.
* The two threads (the producer running `InternalThreadEntry`, the caller running
  `Forward_cpu`) are modelled statement by statement: a program counter carrying the
  thread's local variables, and one step function per thread.  An interleaving is a
  list of thread names; a thread whose next statement is a `pop` on an empty queue
  does not move.
* `PREFETCH_COUNT` is declared in the header, which is not part of the sources; it is
  the parameter `N` throughout.
-/

namespace Caffe

/-! ## Handoff queue -/

/-- Modelled from the spec: `BlockingQueue<T>::push` (caffe/util/blocking_queue.hpp is not
among the sources).  Spec 4.1: "push(ref) always succeeds and is non-blocking, appends to
the tail". -/
def BlockingQueue.push {α : Type} (q : List α) (x : α) : List α := q ++ [x]

/-- Modelled from the spec: `BlockingQueue<T>::pop` (caffe/util/blocking_queue.hpp is not
among the sources).  Spec 4.1: "pop() blocks the calling thread until an element is
available, then removes and returns the head".  `none` stands for "the caller waits". -/
def BlockingQueue.pop {α : Type} (q : List α) : Option (α × List α) :=
  match q with
  | [] => none
  | x :: rest => some (x, rest)

/-- The pop number `n + 1` of a queue nobody pushes on meanwhile (`n` pops come before
it): what it returns and what it leaves, or `none` when one of these pops has to wait. -/
def BlockingQueue.popNth {α : Type} (q : List α) : Nat → Option (α × List α)
  | 0 => BlockingQueue.pop q
  | n + 1 =>
    match BlockingQueue.pop q with
    | none => none
    | some (_, rest) => BlockingQueue.popNth rest n

/-! ## Batches -/

/-- The `Batch<Dtype>` class: a data blob and a label blob.  `δ` is the type of a blob's
content. -/
structure Batch (δ : Type) where
  data_ : δ
  label_ : δ
deriving DecidableEq, Repr

/-- The external loader (the pure virtual `load_batch` and
`load_batch_and_untransformed_batch`): the `k`-th call (counting from 0) rewrites the
buffers it is handed. -/
structure Loader (δ : Type) where
  load_batch : Nat → Batch δ → Batch δ
  load_batch_and_untransformed_batch : Nat → Batch δ → Batch δ → Batch δ × Batch δ

/-! ## The two threads of `BasePrefetchingDataLayer` -/

/-- Where the producer thread stands in `InternalThreadEntry` (lines 107-136), with its
local variables `batch` and `batch_untransformed`. -/
inductive ProducerPc where
  /-- Lines 108-109 are next: the test of `must_stop()`, false as long as no stop was
  requested, and `prefetch_free_.pop()`. -/
  | loopTop
  /-- Line 111 is next: `batch` is popped; the twin pop (113) or `load_batch` (117) follows. -/
  | gotBatch (batch : Nat)
  /-- Line 114 is next: `load_batch_and_untransformed_batch(batch, batch_untransformed)`. -/
  | gotBoth (batch batch_untransformed : Nat)
  /-- Line 130 is next: `prefetch_full_.push(batch)`. -/
  | loaded (batch : Nat) (batch_untransformed : Option Nat)
  /-- Line 132 is next: `prefetch_full_untransformed_.push(batch_untransformed)`. -/
  | pushedFull (batch_untransformed : Nat)
  /-- The loop was left through the `catch (boost::thread_interrupted&)` handler. -/
  | exited
deriving DecidableEq, Repr

/-- Where the caller stands in `Forward_cpu` (lines 147-180), with its local variables. -/
inductive ConsumerPc where
  /-- Not inside `Forward_cpu`; line 149 (`prefetch_full_.pop`) is next. -/
  | idle
  /-- Lines 151-155 are next: reshape `top[0]` and copy the data. -/
  | popped (batch : Nat)
  /-- Line 158 is next: the test of `untransformed_top_` and the twin pop (160). -/
  | copiedData (batch : Nat)
  /-- Lines 161-163 are next: reshape `top[2]` and copy the twin data. -/
  | poppedTwin (batch batch_untransformed : Nat)
  /-- Lines 168-174 are next: the label copy when `output_labels_`. -/
  | copiedTwin (batch : Nat) (batch_untransformed : Option Nat)
  /-- Line 176 is next: `prefetch_free_.push(batch)`. -/
  | copiedLabel (batch : Nat) (batch_untransformed : Option Nat)
  /-- Line 178 is next: `prefetch_free_untransformed_.push(batch_untransformed)`. -/
  | pushedFree (batch_untransformed : Nat)
deriving DecidableEq, Repr

/-- The content of the three output blobs `top[0]`, `top[1]`, `top[2]` as far as
`Forward_cpu` has written them (`none`: never written). -/
structure Top (δ : Type) where
  data : Option δ
  label : Option δ
  untransformed : Option δ
deriving DecidableEq, Repr

/-- The members of `BasePrefetchingDataLayer<Dtype>` the two threads work on.  The pool
arrays `prefetch_` and `prefetch_untransformed_` are indexed by `0 ≤ i < PREFETCH_COUNT`;
the queues hold pool indices. -/
structure BasePrefetchingDataLayer (δ : Type) where
  untransformed_top_ : Bool
  output_labels_ : Bool
  prefetch_ : Nat → Batch δ
  prefetch_untransformed_ : Nat → Batch δ
  prefetch_free_ : List Nat
  prefetch_full_ : List Nat
  prefetch_free_untransformed_ : List Nat
  prefetch_full_untransformed_ : List Nat

/-- A layer together with its two threads.  The last four fields are history variables:
they record what happened and influence nothing. -/
structure PrefetchState (δ : Type) where
  layer : BasePrefetchingDataLayer δ
  producer : ProducerPc
  consumer : ConsumerPc
  top : Top δ
  /-- What each loader call so far left in the buffer(s) it was given. -/
  loads : List (Batch δ × Option (Batch δ))
  /-- The content of `top` at the return of each `Forward_cpu` call so far. -/
  delivered : List (Top δ)
  /-- Number of `prefetch_full_.push` executed (line 130). -/
  full_pushes : Nat
  /-- Number of `prefetch_full_.pop` executed (line 149). -/
  full_pops : Nat

/-- The constructor `BasePrefetchingDataLayer` (lines 37-52) followed by the assignment of
`output_labels_` in `LayerSetUp`: every buffer of the primary pool is pushed on the free
queue in index order, and so is every buffer of the twin pool when `untransformed_top_`. -/
def BasePrefetchingDataLayer.init {δ : Type} (N : Nat) (untransformed_top output_labels : Bool)
    (buf bufU : Nat → Batch δ) : BasePrefetchingDataLayer δ :=
  { untransformed_top_ := untransformed_top
    output_labels_ := output_labels
    prefetch_ := buf
    prefetch_untransformed_ := bufU
    prefetch_free_ := List.range N
    prefetch_full_ := []
    prefetch_free_untransformed_ := if untransformed_top then List.range N else []
    prefetch_full_untransformed_ := [] }

/-- The constructed layer with the producer at the top of its loop and the caller outside
`Forward_cpu`. -/
def PrefetchState.init {δ : Type} (N : Nat) (untransformed_top output_labels : Bool)
    (buf bufU : Nat → Batch δ) : PrefetchState δ :=
  { layer := BasePrefetchingDataLayer.init N untransformed_top output_labels buf bufU
    producer := .loopTop
    consumer := .idle
    top := ⟨none, none, none⟩
    loads := []
    delivered := []
    full_pushes := 0
    full_pops := 0 }

/-- One statement of the producer loop of `InternalThreadEntry` (lines 108-133) while no
stop is requested.  The device transfer of lines 119-129 touches no queue and no host
content and is left out.  Line 131 tests `untransformed_top_`; the flag never changes after
the constructor, so `batch_untransformed` is set exactly when it holds, and the last case
of that match only makes the function total. -/
def producerStep {δ : Type} (ld : Loader δ) (s : PrefetchState δ) : PrefetchState δ :=
  let l := s.layer
  match s.producer with
  | .loopTop =>
    match BlockingQueue.pop l.prefetch_free_ with
    | none => s
    | some (batch, rest) =>
      { s with layer := { l with prefetch_free_ := rest }, producer := .gotBatch batch }
  | .gotBatch batch =>
    if l.untransformed_top_ then
      match BlockingQueue.pop l.prefetch_free_untransformed_ with
      | none => s
      | some (bu, rest) =>
        { s with layer := { l with prefetch_free_untransformed_ := rest }
                 producer := .gotBoth batch bu }
    else
      let b := ld.load_batch s.loads.length (l.prefetch_ batch)
      { s with layer := { l with prefetch_ := Function.update l.prefetch_ batch b }
               loads := s.loads ++ [(b, none)]
               producer := .loaded batch none }
  | .gotBoth batch bu =>
    let r := ld.load_batch_and_untransformed_batch s.loads.length
      (l.prefetch_ batch) (l.prefetch_untransformed_ bu)
    { s with layer := { l with prefetch_ := Function.update l.prefetch_ batch r.1
                               prefetch_untransformed_ :=
                                 Function.update l.prefetch_untransformed_ bu r.2 }
             loads := s.loads ++ [(r.1, some r.2)]
             producer := .loaded batch (some bu) }
  | .loaded batch obu =>
    let s1 := { s with layer := { l with prefetch_full_ := BlockingQueue.push l.prefetch_full_ batch }
                       full_pushes := s.full_pushes + 1 }
    match l.untransformed_top_, obu with
    | true, some bu => { s1 with producer := .pushedFull bu }
    | _, _ => { s1 with producer := .loopTop }
  | .pushedFull bu =>
    { s with layer := { l with prefetch_full_untransformed_ :=
                                 BlockingQueue.push l.prefetch_full_untransformed_ bu }
             producer := .loopTop }
  | .exited => s

/-- One statement of `Forward_cpu` (lines 149-178).  Copying a blob into `top[i]` is the
assignment of its content; which indices of `top` exist and how many values are copied is
the subject of the blob-level model further down (`BasePrefetchingDataLayer.Forward_cpu`,
related to these steps by `Forward_cpu_steps`).  A call that has returned is followed by the
next call. -/
def consumerStep {δ : Type} (s : PrefetchState δ) : PrefetchState δ :=
  let l := s.layer
  match s.consumer with
  | .idle =>
    match BlockingQueue.pop l.prefetch_full_ with
    | none => s
    | some (batch, rest) =>
      { s with layer := { l with prefetch_full_ := rest }
               full_pops := s.full_pops + 1
               consumer := .popped batch }
  | .popped batch =>
    { s with top := { s.top with data := some (l.prefetch_ batch).data_ }
             consumer := .copiedData batch }
  | .copiedData batch =>
    if l.untransformed_top_ then
      match BlockingQueue.pop l.prefetch_full_untransformed_ with
      | none => s
      | some (bu, rest) =>
        { s with layer := { l with prefetch_full_untransformed_ := rest }
                 consumer := .poppedTwin batch bu }
    else { s with consumer := .copiedTwin batch none }
  | .poppedTwin batch bu =>
    { s with top := { s.top with untransformed := some (l.prefetch_untransformed_ bu).data_ }
             consumer := .copiedTwin batch (some bu) }
  | .copiedTwin batch obu =>
    if l.output_labels_ then
      { s with top := { s.top with label := some (l.prefetch_ batch).label_ }
               consumer := .copiedLabel batch obu }
    else { s with consumer := .copiedLabel batch obu }
  | .copiedLabel batch obu =>
    let s1 := { s with layer := { l with prefetch_free_ := BlockingQueue.push l.prefetch_free_ batch } }
    match l.untransformed_top_, obu with
    | true, some bu => { s1 with consumer := .pushedFree bu }
    | _, _ => { s1 with consumer := .idle, delivered := s.delivered ++ [s.top] }
  | .pushedFree bu =>
    { s with layer := { l with prefetch_free_untransformed_ :=
                                 BlockingQueue.push l.prefetch_free_untransformed_ bu }
             consumer := .idle
             delivered := s.delivered ++ [s.top] }

/-- The two threads. -/
inductive Actor where
  | producer
  | consumer
deriving DecidableEq, Repr

/-- One step of the chosen thread. -/
def step {δ : Type} (ld : Loader δ) (a : Actor) (s : PrefetchState δ) : PrefetchState δ :=
  match a with
  | .producer => producerStep ld s
  | .consumer => consumerStep s

/-- Run an interleaving from a state. -/
def run {δ : Type} (ld : Loader δ) (sched : List Actor) (s : PrefetchState δ) : PrefetchState δ :=
  sched.foldl (fun st a => step ld a st) s

/-- Primary buffers held by the producer: popped from `prefetch_free_` (line 109), not yet
pushed on `prefetch_full_` (line 130). -/
def ProducerPc.held : ProducerPc → List Nat
  | .gotBatch b => [b]
  | .gotBoth b _ => [b]
  | .loaded b _ => [b]
  | _ => []

/-- Twin buffers held by the producer (between lines 113 and 132). -/
def ProducerPc.heldU : ProducerPc → List Nat
  | .gotBoth _ bu => [bu]
  | .loaded _ (some bu) => [bu]
  | .pushedFull bu => [bu]
  | _ => []

/-- Primary buffers held by the consumer (between lines 149 and 176). -/
def ConsumerPc.held : ConsumerPc → List Nat
  | .popped b => [b]
  | .copiedData b => [b]
  | .poppedTwin b _ => [b]
  | .copiedTwin b _ => [b]
  | .copiedLabel b _ => [b]
  | _ => []

/-- Twin buffers held by the consumer (between lines 160 and 178). -/
def ConsumerPc.heldU : ConsumerPc → List Nat
  | .poppedTwin _ bu => [bu]
  | .copiedTwin _ (some bu) => [bu]
  | .copiedLabel _ (some bu) => [bu]
  | .pushedFree bu => [bu]
  | _ => []

/-! ## Invariants of the dense layer -/

/-- Pool indices of the buffers number `a`, `a+1`, ..., `b-1` in round-robin order: the
buffer number `j` is `prefetch_[j % N]`. -/
def seg (N a b : Nat) : List Nat := (List.range' a (b - a)).map (· % N)

/-- Completed iterations of the producer loop, from the number `L` of loader calls. -/
def ProducerPc.iters (p : ProducerPc) (L : Nat) : Nat :=
  match p with
  | .loaded _ _ => L - 1
  | .pushedFull _ => L - 1
  | _ => L

/-- Loader calls of the current iteration (0 or 1). -/
def ProducerPc.nLoad : ProducerPc → Nat
  | .loaded _ _ => 1
  | .pushedFull _ => 1
  | _ => 0

/-- Primary free-queue pops of the current iteration. -/
def ProducerPc.nPop : ProducerPc → Nat
  | .loopTop => 0
  | .exited => 0
  | _ => 1

/-- Primary full-queue pushes of the current iteration. -/
def ProducerPc.nPush : ProducerPc → Nat
  | .pushedFull _ => 1
  | _ => 0

/-- Twin free-queue pops of the current iteration. -/
def ProducerPc.nPopU : ProducerPc → Nat
  | .gotBoth _ _ => 1
  | .loaded _ (some _) => 1
  | .pushedFull _ => 1
  | _ => 0

/-- Primary full-queue pops of the current `Forward_cpu` call. -/
def ConsumerPc.nPop : ConsumerPc → Nat
  | .idle => 0
  | _ => 1

/-- Primary free-queue pushes of the current `Forward_cpu` call. -/
def ConsumerPc.nPush : ConsumerPc → Nat
  | .pushedFree _ => 1
  | _ => 0

/-- Twin full-queue pops of the current `Forward_cpu` call. -/
def ConsumerPc.nPopU : ConsumerPc → Nat
  | .poppedTwin _ _ => 1
  | .copiedTwin _ (some _) => 1
  | .copiedLabel _ (some _) => 1
  | .pushedFree _ => 1
  | _ => 0

/-- The producer's locals are the buffers number `I` of their pools. -/
def ProducerPc.localsOk (p : ProducerPc) (N I : Nat) (ut : Bool) : Prop :=
  match p with
  | .loopTop => True
  | .gotBatch b => b = I % N
  | .gotBoth b bu => b = I % N ∧ bu = I % N ∧ ut = true
  | .loaded b obu => b = I % N ∧ obu = if ut then some (I % N) else none
  | .pushedFull bu => bu = I % N ∧ ut = true
  | .exited => False

/-- The consumer's locals are the buffers number `K` of their pools. -/
def ConsumerPc.localsOk (c : ConsumerPc) (N K : Nat) (ut : Bool) : Prop :=
  match c with
  | .idle => True
  | .popped b => b = K % N
  | .copiedData b => b = K % N
  | .poppedTwin b bu => b = K % N ∧ bu = K % N ∧ ut = true
  | .copiedTwin b obu => b = K % N ∧ obu = if ut then some (K % N) else none
  | .copiedLabel b obu => b = K % N ∧ obu = if ut then some (K % N) else none
  | .pushedFree bu => bu = K % N ∧ ut = true

/-- Queue invariant: with `I` completed producer iterations and `K` completed
`Forward_cpu` calls, every queue is a segment of the round-robin order. -/
def QInv {δ : Type} (N : Nat) (s : PrefetchState δ) : Prop :=
  let L := s.loads.length
  let K := s.delivered.length
  let I := s.producer.iters L
  L = I + s.producer.nLoad ∧
  s.producer.localsOk N I s.layer.untransformed_top_ ∧
  s.consumer.localsOk N K s.layer.untransformed_top_ ∧
  s.layer.prefetch_free_ = seg N (I + s.producer.nPop) (K + s.consumer.nPush + N) ∧
  s.layer.prefetch_full_ = seg N (K + s.consumer.nPop) (I + s.producer.nPush) ∧
  K + s.consumer.nPop ≤ I + s.producer.nPush ∧
  I + s.producer.nPop ≤ K + s.consumer.nPush + N ∧
  s.layer.prefetch_free_untransformed_
    = (if s.layer.untransformed_top_ then seg N (I + s.producer.nPopU) (K + N) else []) ∧
  s.layer.prefetch_full_untransformed_
    = (if s.layer.untransformed_top_ then seg N (K + s.consumer.nPopU) I else []) ∧
  (s.layer.untransformed_top_ = true → K + s.consumer.nPopU ≤ I ∧ I + s.producer.nPopU ≤ K + N) ∧
  L ≤ K + N ∧
  s.full_pushes = I + s.producer.nPush ∧
  s.full_pops = K + s.consumer.nPop

/-- What a `Forward_cpu` call leaves in `top` when it consumed the buffers a loader call
left as `l`. -/
def Top.ofLoad {δ : Type} (output_labels : Bool) (l : Batch δ × Option (Batch δ)) : Top δ :=
  { data := some l.1.data_
    label := if output_labels then some l.1.label_ else none
    untransformed := l.2.map (fun b => b.data_) }

/-- How far the current `Forward_cpu` call has come. -/
def ConsumerPc.stage : ConsumerPc → Nat
  | .idle => 0
  | .popped _ => 1
  | .copiedData _ => 2
  | .poppedTwin _ _ => 3
  | .copiedTwin _ _ => 4
  | .copiedLabel _ _ => 5
  | .pushedFree _ => 6

/-- Content invariant: the buffers number `K ≤ j < L` still hold what the `j`-th loader call
wrote, `top` holds what the current call copied so far, and every completed call delivered
the load of the same number. -/
def CInv {δ : Type} (N : Nat) (s : PrefetchState δ) : Prop :=
  let L := s.loads.length
  let K := s.delivered.length
  (∀ j, K ≤ j → j < L → s.loads[j]? = some (s.layer.prefetch_ (j % N),
      if s.layer.untransformed_top_ then some (s.layer.prefetch_untransformed_ (j % N)) else none)) ∧
  (2 ≤ s.consumer.stage → s.top.data = (s.loads[K]?).map (fun l => l.1.data_)) ∧
  (4 ≤ s.consumer.stage → s.layer.untransformed_top_ = true →
    s.top.untransformed = (s.loads[K]?).bind (fun l => l.2.map (fun b => b.data_))) ∧
  (5 ≤ s.consumer.stage → s.layer.output_labels_ = true →
    s.top.label = (s.loads[K]?).map (fun l => l.1.label_)) ∧
  (s.layer.untransformed_top_ = false → s.top.untransformed = none) ∧
  (s.layer.output_labels_ = false → s.top.label = none) ∧
  s.delivered = (s.loads.take K).map (Top.ofLoad s.layer.output_labels_)

/-- In dual-stream mode every recorded load has a twin, in single-stream mode none has. -/
def TInv {δ : Type} (s : PrefetchState δ) : Prop :=
  ∀ l ∈ s.loads, l.2.isSome = s.layer.untransformed_top_

/-! ## The two threads of `BasePrefetchingSparseDataLayer` -/

/-- The `SparseBatch<Dtype>` class: a sparse data blob (`σ` is its content) and a dense
label blob. -/
structure SparseBatch (σ δ : Type) where
  data_ : σ
  label_ : δ
deriving DecidableEq, Repr

/-- Where the producer thread stands in the sparse `InternalThreadEntry` (lines 240-254). -/
inductive SparseProducerPc where
  /-- Line 242 is next: `prefetch_free_.pop()`. -/
  | loopTop
  /-- Line 243 is next: `load_batch(batch)`. -/
  | gotBatch (batch : Nat)
  /-- Line 250 is next: `prefetch_full_.push(batch)`. -/
  | loaded (batch : Nat)
  /-- The loop was left through the `catch (boost::thread_interrupted&)` handler. -/
  | exited
deriving DecidableEq, Repr

/-- Where the caller stands in the sparse `Forward_cpu` (lines 263-298). -/
inductive SparseConsumerPc where
  /-- Not inside `Forward_cpu`; line 265 (`prefetch_full_.pop`) is next. -/
  | idle
  /-- Line 271 is next: the `dynamic_cast` of `top[0]` and the copy or the fatal error. -/
  | popped (batch : Nat)
  /-- Lines 289-295 are next: the label copy when `output_labels_`. -/
  | copiedData (batch : Nat)
  /-- Line 297 is next: `prefetch_free_.push(batch)`. -/
  | copiedLabel (batch : Nat)
  /-- `LOG(FATAL)` of line 284 ended the process while `batch` was held. -/
  | aborted (batch : Nat)
deriving DecidableEq, Repr

/-- The members of `BasePrefetchingSparseDataLayer<Dtype>` the two threads work on. -/
structure BasePrefetchingSparseDataLayer (σ δ : Type) where
  output_labels_ : Bool
  prefetch_ : Nat → SparseBatch σ δ
  prefetch_free_ : List Nat
  prefetch_full_ : List Nat

/-- A sparse layer together with its two threads; `loads` and `calls` are history
variables (loader calls made, `Forward_cpu` calls returned). -/
structure SparsePrefetchState (σ δ : Type) where
  layer : BasePrefetchingSparseDataLayer σ δ
  producer : SparseProducerPc
  consumer : SparseConsumerPc
  top_data : Option σ
  top_label : Option δ
  loads : Nat
  calls : Nat

/-- The constructor `BasePrefetchingSparseDataLayer` (lines 185-193). -/
def BasePrefetchingSparseDataLayer.init {σ δ : Type} (N : Nat) (output_labels : Bool)
    (buf : Nat → SparseBatch σ δ) : BasePrefetchingSparseDataLayer σ δ :=
  { output_labels_ := output_labels
    prefetch_ := buf
    prefetch_free_ := List.range N
    prefetch_full_ := [] }

/-- The constructed sparse layer with both threads at their starting points. -/
def SparsePrefetchState.init {σ δ : Type} (N : Nat) (output_labels : Bool)
    (buf : Nat → SparseBatch σ δ) : SparsePrefetchState σ δ :=
  { layer := BasePrefetchingSparseDataLayer.init N output_labels buf
    producer := .loopTop
    consumer := .idle
    top_data := none
    top_label := none
    loads := 0
    calls := 0 }

/-- One statement of the sparse producer loop (lines 241-251); `load_batch k` is what the
`k`-th loader call does to the buffer. -/
def sparseProducerStep {σ δ : Type} (load_batch : Nat → SparseBatch σ δ → SparseBatch σ δ)
    (s : SparsePrefetchState σ δ) : SparsePrefetchState σ δ :=
  let l := s.layer
  match s.producer with
  | .loopTop =>
    match BlockingQueue.pop l.prefetch_free_ with
    | none => s
    | some (batch, rest) =>
      { s with layer := { l with prefetch_free_ := rest }, producer := .gotBatch batch }
  | .gotBatch batch =>
    { s with layer := { l with prefetch_ :=
                                 Function.update l.prefetch_ batch (load_batch s.loads (l.prefetch_ batch)) }
             loads := s.loads + 1
             producer := .loaded batch }
  | .loaded batch =>
    { s with layer := { l with prefetch_full_ := BlockingQueue.push l.prefetch_full_ batch }
             producer := .loopTop }
  | .exited => s

/-- One statement of the sparse `Forward_cpu` (lines 265-297); `sparse_top` tells whether
the `dynamic_cast<SparseBlob<Dtype>*>(top[0])` of line 271 succeeds. -/
def sparseConsumerStep {σ δ : Type} (sparse_top : Bool) (s : SparsePrefetchState σ δ) :
    SparsePrefetchState σ δ :=
  let l := s.layer
  match s.consumer with
  | .idle =>
    match BlockingQueue.pop l.prefetch_full_ with
    | none => s
    | some (batch, rest) =>
      { s with layer := { l with prefetch_full_ := rest }, consumer := .popped batch }
  | .popped batch =>
    if sparse_top then
      { s with top_data := some (l.prefetch_ batch).data_, consumer := .copiedData batch }
    else { s with consumer := .aborted batch }
  | .copiedData batch =>
    if l.output_labels_ then
      { s with top_label := some (l.prefetch_ batch).label_, consumer := .copiedLabel batch }
    else { s with consumer := .copiedLabel batch }
  | .copiedLabel batch =>
    { s with layer := { l with prefetch_free_ := BlockingQueue.push l.prefetch_free_ batch }
             consumer := .idle
             calls := s.calls + 1 }
  | .aborted _ => s

/-- One step of the chosen thread of the sparse layer; nothing runs once `LOG(FATAL)` has
ended the process. -/
def sparseStep {σ δ : Type} (load_batch : Nat → SparseBatch σ δ → SparseBatch σ δ)
    (sparse_top : Bool) (a : Actor) (s : SparsePrefetchState σ δ) : SparsePrefetchState σ δ :=
  match s.consumer, a with
  | .aborted _, _ => s
  | _, .producer => sparseProducerStep load_batch s
  | _, .consumer => sparseConsumerStep sparse_top s

/-- Run an interleaving of the sparse layer from a state. -/
def sparseRun {σ δ : Type} (load_batch : Nat → SparseBatch σ δ → SparseBatch σ δ)
    (sparse_top : Bool) (sched : List Actor) (s : SparsePrefetchState σ δ) :
    SparsePrefetchState σ δ :=
  sched.foldl (fun st a => sparseStep load_batch sparse_top a st) s

/-- Sparse buffers held by the producer (between lines 242 and 250). -/
def SparseProducerPc.held : SparseProducerPc → List Nat
  | .gotBatch b => [b]
  | .loaded b => [b]
  | _ => []

/-- Sparse buffers held by the consumer (between lines 265 and 297). -/
def SparseConsumerPc.held : SparseConsumerPc → List Nat
  | .popped b => [b]
  | .copiedData b => [b]
  | .copiedLabel b => [b]
  | .aborted b => [b]
  | .idle => []

/-! ## Shutdown -/

/-- The exit of the dense `InternalThreadEntry` through `catch (boost::thread_interrupted&)`
(lines 134-136), when the interruption is delivered at the statement the producer stands at.
Spec 4.2: the stop signal is observed "while blocked inside step 1 or the loader call":
`BlockingQueue::pop` waits, and can be interrupted, only on an empty queue; the loader may be
interrupted anywhere; the pushes cannot.  The locals `batch` and `batch_untransformed` go out
of scope with the loop body: the handler is empty.  `none`: no interruption point here. -/
def InternalThreadEntry_interrupted {δ : Type} (s : PrefetchState δ) : Option (PrefetchState δ) :=
  match s.producer with
  | .loopTop =>
    if s.layer.prefetch_free_ = [] then some { s with producer := .exited } else none
  | .gotBatch _ =>
    if s.layer.untransformed_top_ then
      if s.layer.prefetch_free_untransformed_ = [] then some { s with producer := .exited }
      else none
    else some { s with producer := .exited }
  | .gotBoth _ _ => some { s with producer := .exited }
  | _ => none

/-- The exit of the sparse `InternalThreadEntry` through its handler (lines 252-254). -/
def sparseInternalThreadEntry_interrupted {σ δ : Type} (s : SparsePrefetchState σ δ) :
    Option (SparsePrefetchState σ δ) :=
  match s.producer with
  | .loopTop =>
    if s.layer.prefetch_free_ = [] then some { s with producer := .exited } else none
  | .gotBatch _ => some { s with producer := .exited }
  | _ => none

/-! ## Invariant of the sparse layer -/

/-- Loader calls of the current iteration of the sparse producer. -/
def SparseProducerPc.nLoad : SparseProducerPc → Nat
  | .loaded _ => 1
  | _ => 0

/-- Free-queue pops of the current iteration of the sparse producer. -/
def SparseProducerPc.nPop : SparseProducerPc → Nat
  | .gotBatch _ => 1
  | .loaded _ => 1
  | _ => 0

/-- Full-queue pops of the current sparse `Forward_cpu` call. -/
def SparseConsumerPc.nPop : SparseConsumerPc → Nat
  | .idle => 0
  | _ => 1

/-- Queue invariant of the sparse layer, as `QInv`. -/
def SInv {σ δ : Type} (N : Nat) (s : SparsePrefetchState σ δ) : Prop :=
  let I := s.loads - s.producer.nLoad
  let K := s.calls
  s.loads = I + s.producer.nLoad ∧
  s.producer ≠ .exited ∧
  s.producer.held = seg N I (I + s.producer.nPop) ∧
  s.consumer.held = seg N K (K + s.consumer.nPop) ∧
  s.layer.prefetch_free_ = seg N (I + s.producer.nPop) (K + N) ∧
  s.layer.prefetch_full_ = seg N (K + s.consumer.nPop) I ∧
  K + s.consumer.nPop ≤ I ∧
  I + s.producer.nPop ≤ K + N

/-- The statements of one whole producer iteration followed by those of one whole
`Forward_cpu` call. -/
def roundSchedule (untransformed_top : Bool) : List Actor :=
  if untransformed_top then List.replicate 5 Actor.producer ++ List.replicate 7 Actor.consumer
  else List.replicate 3 Actor.producer ++ List.replicate 5 Actor.consumer

/-- The interleaving that runs `k` rounds one after the other. -/
def roundsSchedule (untransformed_top : Bool) : Nat → List Actor
  | 0 => []
  | k + 1 => roundsSchedule untransformed_top k ++ roundSchedule untransformed_top

/-! ## Blobs and the sequential `Forward_cpu` -/

/-- Values of the template parameter `Dtype` (`float` or `double` in the instantiations).
The layer only copies them, so they are modelled by integers. -/
abbrev Dtype := Int

/-- The part of `Blob<Dtype>` the layer uses: `shape()` and the storage behind `cpu_data()`
and `mutable_cpu_data()`, whose length is the blob's capacity. -/
structure Blob where
  shape : List Nat
  data : List Dtype
deriving DecidableEq, Repr

/-- The `count()` of a blob: the product of its dimensions. -/
def Blob.count (b : Blob) : Nat := b.shape.prod

/-- A blob whose storage holds at least `count()` values, as every `Blob` does. -/
def Blob.wf (b : Blob) : Prop := b.count ≤ b.data.length

instance (b : Blob) : Decidable b.wf := by unfold Blob.wf; infer_instance

/-- Modelled from the spec: `Blob<Dtype>::ReshapeLike` (caffe/blob.hpp is not among the
sources).  Spec 4.3: "resize the downstream output storage to match the popped buffer's
current shape"; spec 3: "capacity grows via reshape-in-place as needed". -/
def Blob.ReshapeLike (t other : Blob) : Blob :=
  { shape := other.shape
    data := t.data ++ List.replicate (other.count - t.data.length) 0 }

/-- Modelled from the spec: `caffe_copy(n, X, Y)` (caffe/util/math_functions.hpp is not among
the sources).  Spec 4.3: "copy (not move) the buffer's data into the downstream output".
The first `n` values of `X` replace the first `n` values of `Y`; `none` when either storage
is shorter than `n` (the source reads or writes past the end). -/
def caffe_copy {α : Type} (n : Nat) (X Y : List α) : Option (List α) :=
  if n ≤ X.length ∧ n ≤ Y.length then some (X.take n ++ Y.drop n) else none

/-- The ways a `Forward_cpu` call does not return normally. -/
inductive Fault where
  /-- The call waits in a `pop` on an empty queue. -/
  | blocked
  /-- `top[i]` is evaluated with `i ≥ top.size()`. -/
  | indexOutOfRange (i : Nat)
  /-- A copy reads or writes past the end of a storage. -/
  | bufferOverrun
  /-- `LOG(FATAL)` with this message. -/
  | fatal (msg : String)
deriving DecidableEq, Repr

/-- The statement pair `top[i]->ReshapeLike(src); caffe_copy(src.count(), src.cpu_data(),
top[i]->mutable_cpu_data());` (lines 151-155, 161-163, 170-173, 291-294).  A fault carries
the output blobs as they stand when it happens. -/
def copyInto (top : List Blob) (i : Nat) (src : Blob) : Except (Fault × List Blob) (List Blob) :=
  match top[i]? with
  | none => .error (.indexOutOfRange i, top)
  | some t =>
    let t1 := t.ReshapeLike src
    match caffe_copy src.count src.data t1.data with
    | none => .error (.bufferOverrun, top.set i t1)
    | some d => .ok (top.set i { t1 with data := d })

/-- The method `BasePrefetchingDataLayer<Dtype>::Forward_cpu` (lines 146-180) run without
interference: the layer and the output blobs after the call, or the fault that stops it. -/
def BasePrefetchingDataLayer.Forward_cpu (l : BasePrefetchingDataLayer Blob) (top : List Blob) :
    Except (Fault × List Blob) (BasePrefetchingDataLayer Blob × List Blob) :=
  match BlockingQueue.pop l.prefetch_full_ with
  | none => .error (.blocked, top)
  | some (batch, rest) =>
    let l1 := { l with prefetch_full_ := rest }
    match copyInto top 0 (l1.prefetch_ batch).data_ with
    | .error e => .error e
    | .ok top1 =>
      let twin : Except (Fault × List Blob)
          (BasePrefetchingDataLayer Blob × List Blob × Option Nat) :=
        if l1.untransformed_top_ then
          match BlockingQueue.pop l1.prefetch_full_untransformed_ with
          | none => .error (.blocked, top1)
          | some (bu, restU) =>
            match copyInto top1 2 (l1.prefetch_untransformed_ bu).data_ with
            | .error e => .error e
            | .ok top2 => .ok ({ l1 with prefetch_full_untransformed_ := restU }, top2, some bu)
        else .ok (l1, top1, none)
      match twin with
      | .error e => .error e
      | .ok (l2, top2, obu) =>
        let labels : Except (Fault × List Blob) (List Blob) :=
          if l2.output_labels_ then copyInto top2 1 (l2.prefetch_ batch).label_ else .ok top2
        match labels with
        | .error e => .error e
        | .ok top3 =>
          let l3 := { l2 with prefetch_free_ := BlockingQueue.push l2.prefetch_free_ batch }
          match l3.untransformed_top_, obu with
          | true, some bu =>
            .ok ({ l3 with prefetch_free_untransformed_ :=
                             BlockingQueue.push l3.prefetch_free_untransformed_ bu }, top3)
          | _, _ => .ok (l3, top3)

/-- The part of `SparseBlob<Dtype>` the layer uses: `shape()`, `nnz()` and the storages
behind `cpu_data()`, `cpu_indices()` and `cpu_ptr()`. -/
structure SparseBlob where
  shape : List Nat
  nnz : Nat
  data : List Dtype
  indices : List Int
  ptr : List Int
deriving DecidableEq, Repr

/-- A sparse blob with at least one dimension whose storages hold `nnz` values, `nnz` column
indices and `shape()[0] + 1` row pointers. -/
def SparseBlob.wf (b : SparseBlob) : Prop :=
  b.shape ≠ [] ∧ b.nnz ≤ b.data.length ∧ b.nnz ≤ b.indices.length ∧
    b.shape.headD 0 + 1 ≤ b.ptr.length

instance (b : SparseBlob) : Decidable b.wf := by unfold SparseBlob.wf; infer_instance

/-- Modelled from the spec: `SparseBlob<Dtype>::ReshapeLike` (caffe/sparse_blob.hpp is not
among the sources).  Spec 6: "the sparse variant additionally requires the sink to expose
reshape_like, writable value/index/row-pointer regions"; spec 3: "three parallel arrays
(non-zero values, column indices, row-pointer offsets; count of row pointers = rows+1)". -/
def SparseBlob.ReshapeLike (t other : SparseBlob) : SparseBlob :=
  { shape := other.shape
    nnz := other.nnz
    data := t.data ++ List.replicate (other.nnz - t.data.length) 0
    indices := t.indices ++ List.replicate (other.nnz - t.indices.length) 0
    ptr := t.ptr ++ List.replicate (other.shape.headD 0 + 1 - t.ptr.length) 0 }

/-- What an element of `top` of the sparse layer points to: a plain `Blob`, or a `SparseBlob`,
for which alone `dynamic_cast<SparseBlob<Dtype>*>` succeeds. -/
inductive Sink where
  | dense (b : Blob)
  | sparse (b : SparseBlob)
deriving DecidableEq, Repr

/-- The `Blob` base part of a sink: `SparseBlob` inherits `shape()` and the value storage. -/
def Sink.base : Sink → Blob
  | .dense b => b
  | .sparse b => { shape := b.shape, data := b.data }

/-- Write back the `Blob` base part of a sink. -/
def Sink.withBase : Sink → Blob → Sink
  | .dense _, b => .dense b
  | .sparse s, b => .sparse { s with shape := b.shape, data := b.data }

/-- The label copy of the sparse layer (lines 291-294), through the `Blob` interface of
`top[1]`. -/
def copyIntoSink (top : List Sink) (i : Nat) (src : Blob) :
    Except (Fault × List Sink) (List Sink) :=
  match top[i]? with
  | none => .error (.indexOutOfRange i, top)
  | some t =>
    let t1 := t.base.ReshapeLike src
    match caffe_copy src.count src.data t1.data with
    | none => .error (.bufferOverrun, top.set i (t.withBase t1))
    | some d => .ok (top.set i (t.withBase { t1 with data := d }))

/-- The three copies of lines 276-281 into the sparse blob `t`, already reshaped. -/
def copySparse (src t : SparseBlob) : Option SparseBlob :=
  match caffe_copy src.nnz src.data t.data with
  | none => none
  | some d =>
    match caffe_copy src.nnz src.indices t.indices with
    | none => none
    | some ix =>
      match src.shape[0]? with
      | none => none
      | some rows =>
        match caffe_copy (rows + 1) src.ptr t.ptr with
        | none => none
        | some p => some { t with data := d, indices := ix, ptr := p }

/-- The method `BasePrefetchingSparseDataLayer<Dtype>::Forward_cpu` (lines 262-298) run
without interference. -/
def BasePrefetchingSparseDataLayer.Forward_cpu
    (l : BasePrefetchingSparseDataLayer SparseBlob Blob) (top : List Sink) :
    Except (Fault × List Sink) (BasePrefetchingSparseDataLayer SparseBlob Blob × List Sink) :=
  match BlockingQueue.pop l.prefetch_full_ with
  | none => .error (.blocked, top)
  | some (batch, rest) =>
    let l1 := { l with prefetch_full_ := rest }
    match top[0]? with
    | none => .error (.indexOutOfRange 0, top)
    | some (Sink.dense _) => .error (.fatal "fatal error", top)
    | some (Sink.sparse sparseBlob) =>
      let t1 := sparseBlob.ReshapeLike (l1.prefetch_ batch).data_
      match copySparse (l1.prefetch_ batch).data_ t1 with
      | none => .error (.bufferOverrun, top.set 0 (.sparse t1))
      | some t2 =>
        let top1 := top.set 0 (.sparse t2)
        let labels : Except (Fault × List Sink) (List Sink) :=
          if l1.output_labels_ then copyIntoSink top1 1 (l1.prefetch_ batch).label_
          else .ok top1
        match labels with
        | .error e => .error e
        | .ok top2 =>
          .ok ({ l1 with prefetch_free_ := BlockingQueue.push l1.prefetch_free_ batch }, top2)

/-! ## `LayerSetUp` -/

/-- The calls `LayerSetUp` makes on its collaborators (logging left out). -/
inductive Call where
  /-- Line 29: `data_transformer_.reset(new DataTransformer<Dtype>(...))`. -/
  | resetDataTransformer
  /-- `data_transformer_->InitRand()`. -/
  | InitRand
  /-- The virtual `DataLayerSetUp(bottom, top)` of the concrete layer. -/
  | DataLayerSetUp
  /-- The call `mutable_cpu_data()` on a blob of buffer `i` of the primary or the twin pool. -/
  | mutable_cpu_data (twin : Bool) (i : Nat) (label : Bool)
  /-- The call `mutable_gpu_data()` on a blob of buffer `i` of the primary or the twin pool. -/
  | mutable_gpu_data (twin : Bool) (i : Nat) (label : Bool)
  /-- `StartInternalThread()`. -/
  | StartInternalThread
deriving DecidableEq, Repr

/-- The calls that only touch a pool blob. -/
def Call.isTouch : Call → Bool
  | .mutable_cpu_data _ _ _ => true
  | .mutable_gpu_data _ _ _ => true
  | _ => false

/-- The method `BaseDataLayer<Dtype>::LayerSetUp` (lines 20-34): the value it gives
`output_labels_` and the calls it makes, from `top.size()`. -/
def BaseDataLayer.LayerSetUp (top_size : Nat) : Bool × List Call :=
  (if top_size = 1 then false else true,
   [.resetDataTransformer, .InitRand, .DataLayerSetUp])

/-- Lines 62-88 of the dense `LayerSetUp`: every pool blob is touched once in host memory
and, in GPU mode, once in device memory, before the thread starts. -/
def BasePrefetchingDataLayer.touchBuffers (N : Nat) (untransformed_top gpu output_labels : Bool) :
    List Call :=
  let cpu := (List.range N).flatMap fun i =>
    [Call.mutable_cpu_data false i false]
      ++ (if untransformed_top then [Call.mutable_cpu_data true i false] else [])
      ++ (if output_labels then
            [Call.mutable_cpu_data false i true]
              ++ (if untransformed_top then [Call.mutable_cpu_data true i true] else [])
          else [])
  let gpuPrimary := (List.range N).flatMap fun i =>
    [Call.mutable_gpu_data false i false]
      ++ (if output_labels then [Call.mutable_gpu_data false i true] else [])
  let gpuTwin := (List.range N).flatMap fun i =>
    [Call.mutable_gpu_data true i false]
      ++ (if output_labels then [Call.mutable_gpu_data true i true] else [])
  cpu ++ (if gpu then gpuPrimary ++ (if untransformed_top then gpuTwin else []) else [])

/-- The method `BasePrefetchingDataLayer<Dtype>::LayerSetUp` (lines 54-93) for a pool of `N`
buffers; `gpu` tells whether the build is not `CPU_ONLY` and `Caffe::mode() == Caffe::GPU`. -/
def BasePrefetchingDataLayer.LayerSetUp (N : Nat) (untransformed_top gpu : Bool)
    (top_size : Nat) : Bool × List Call :=
  let base := BaseDataLayer.LayerSetUp top_size
  (base.1,
   base.2 ++ BasePrefetchingDataLayer.touchBuffers N untransformed_top gpu base.1
     ++ [.InitRand, .StartInternalThread])

/-- Lines 205-224 of the sparse `LayerSetUp`. -/
def BasePrefetchingSparseDataLayer.touchBuffers (N : Nat) (gpu output_labels : Bool) :
    List Call :=
  let cpu := (List.range N).flatMap fun i =>
    [Call.mutable_cpu_data false i false]
      ++ (if output_labels then [Call.mutable_cpu_data false i true] else [])
  let gpuCalls := (List.range N).flatMap fun i =>
    [Call.mutable_gpu_data false i false]
      ++ (if output_labels then [Call.mutable_gpu_data false i true] else [])
  cpu ++ (if gpu then gpuCalls else [])

/-- The method `BasePrefetchingSparseDataLayer<Dtype>::LayerSetUp` (lines 195-229). -/
def BasePrefetchingSparseDataLayer.LayerSetUp (N : Nat) (gpu : Bool) (top_size : Nat) :
    Bool × List Call :=
  let base := BaseDataLayer.LayerSetUp top_size
  (base.1,
   base.2 ++ BasePrefetchingSparseDataLayer.touchBuffers N gpu base.1
     ++ [.InitRand, .StartInternalThread])

/-- The blob `copyInto` leaves in place of `t`: reshaped like `src`, its first `src.count()`
values those of `src`. -/
def Blob.copied (t src : Blob) : Blob :=
  { shape := src.shape
    data := src.data.take src.count ++ (t.ReshapeLike src).data.drop src.count }

/-- A layer of the dense blob-level examples: pool of 3, buffer 0 filled with data `[1, 2, 3]`
and label `[7]` and pushed on the full queue, buffers 1 and 2 free. -/
def exampleLayer : BasePrefetchingDataLayer Blob :=
  { untransformed_top_ := false
    output_labels_ := true
    prefetch_ := fun i => if i = 0 then ⟨⟨[3], [1, 2, 3]⟩, ⟨[1], [7]⟩⟩ else ⟨⟨[], []⟩, ⟨[], []⟩⟩
    prefetch_untransformed_ := fun _ => ⟨⟨[], []⟩, ⟨[], []⟩⟩
    prefetch_free_ := [1, 2]
    prefetch_full_ := [0]
    prefetch_free_untransformed_ := []
    prefetch_full_untransformed_ := [] }

/-- Two empty output blobs. -/
def exampleTop : List Blob := [⟨[], []⟩, ⟨[], []⟩]

/-- The sparse blob the three copies of lines 276-281 leave in place of `t`. -/
def SparseBlob.copied (t src : SparseBlob) : SparseBlob :=
  let t1 := t.ReshapeLike src
  { t1 with
    data := src.data.take src.nnz ++ t1.data.drop src.nnz
    indices := src.indices.take src.nnz ++ t1.indices.drop src.nnz
    ptr := src.ptr.take (src.shape.headD 0 + 1) ++ t1.ptr.drop (src.shape.headD 0 + 1) }

/-- A sparse layer of the blob-level examples: pool of 3, buffer 0 holding the 2 x 3 matrix
with rows `(5, 0, 0)` and `(0, 0, 6)` and label `[7]`, at the head of the full queue. -/
def exampleSparseLayer : BasePrefetchingSparseDataLayer SparseBlob Blob :=
  { output_labels_ := true
    prefetch_ := fun i =>
      if i = 0 then ⟨⟨[2, 3], 2, [5, 6], [0, 2], [0, 1, 2]⟩, ⟨[1], [7]⟩⟩
      else ⟨⟨[], 0, [], [], []⟩, ⟨[], []⟩⟩
    prefetch_free_ := [1, 2]
    prefetch_full_ := [0] }

/-- A sparse-capable `top[0]` and a dense `top[1]`, both empty. -/
def exampleSparseTop : List Sink := [.sparse ⟨[], 0, [], [], []⟩, .dense ⟨[], []⟩]

/-- A dense `top[0]` and a dense `top[1]`, both empty. -/
def exampleDenseTop : List Sink := [.dense ⟨[], []⟩, .dense ⟨[], []⟩]

/-! ## Concrete instances used by the evaluated examples -/

/-- A loader whose `k`-th call writes data `10 * k` and label `10 * k + 1` (and, for the
twin, `10 * k + 5` and `10 * k + 6`). -/
def exampleLoader : Loader Nat :=
  { load_batch := fun k _ => ⟨10 * k, 10 * k + 1⟩
    load_batch_and_untransformed_batch := fun k _ _ => (⟨10 * k, 10 * k + 1⟩, ⟨10 * k + 5, 10 * k + 6⟩) }

/-- A freshly constructed layer with a pool of `N` buffers, all holding zeros. -/
def exampleInit (N : Nat) (untransformed_top : Bool) : PrefetchState Nat :=
  PrefetchState.init N untransformed_top true (fun _ => ⟨0, 0⟩) (fun _ => ⟨0, 0⟩)

/-- A freshly constructed sparse layer with a pool of `N` buffers. -/
def exampleSparseInit (N : Nat) : SparsePrefetchState Nat Nat :=
  SparsePrefetchState.init N true (fun _ => ⟨0, 0⟩)

/-- The sparse loader matching `exampleLoader`. -/
def exampleSparseLoad (k : Nat) (_ : SparseBatch Nat Nat) : SparseBatch Nat Nat :=
  ⟨10 * k, 10 * k + 1⟩

/-- The example layer in dual-stream mode: twin buffer 0 holds data `[4, 5, 6]` and is at
the head of the twin full queue. -/
def exampleDualLayer : BasePrefetchingDataLayer Blob :=
  { exampleLayer with
    untransformed_top_ := true
    prefetch_untransformed_ := fun i =>
      if i = 0 then ⟨⟨[3], [4, 5, 6]⟩, ⟨[1], [7]⟩⟩ else ⟨⟨[], []⟩, ⟨[], []⟩⟩
    prefetch_free_untransformed_ := [1, 2]
    prefetch_full_untransformed_ := [0] }

/-! ## Lemmas on the round-robin order and the invariants -/

theorem seg_of_le {N a b : Nat} (h : b ≤ a) : seg N a b = [] := by
  simp [seg, Nat.sub_eq_zero_of_le h]

theorem seg_length (N a b : Nat) : (seg N a b).length = b - a := by
  simp [seg]

theorem seg_cons {N a b : Nat} (h : a < b) : seg N a b = a % N :: seg N (a + 1) b := by
  unfold seg
  have e : b - a = (b - (a + 1)) + 1 := by omega
  rw [e, List.range'_succ, List.map_cons]

theorem seg_snoc {N a b : Nat} (h : a ≤ b) : seg N a b ++ [b % N] = seg N a (b + 1) := by
  unfold seg
  have e : b + 1 - a = (b - a) + 1 := by omega
  rw [e, List.range'_1_concat, List.map_append]
  simp
  congr 1
  omega

theorem seg_eq_cons {N a b x : Nat} {r : List Nat} (h : seg N a b = x :: r) :
    a < b ∧ x = a % N ∧ r = seg N (a + 1) b := by
  by_cases hab : a < b
  · rw [seg_cons hab] at h
    simp at h
    exact ⟨hab, h.1.symm, h.2.symm⟩
  · rw [seg_of_le (by omega)] at h
    cases h

theorem seg_push {N a b x : Nat} (h : a ≤ b + N) (hx : x = b % N) :
    seg N a (b + N) ++ [x] = seg N a (b + 1 + N) := by
  have : x = (b + N) % N := by simp [hx]
  rw [this, seg_snoc h]
  congr 1
  omega

theorem seg_zero (N : Nat) : seg N 0 N = List.range N := by
  apply List.ext_getElem <;> simp [seg]
  intro n h1
  exact Nat.mod_eq_of_lt h1

theorem init_QInv {δ : Type} (N : Nat) (ut lab : Bool) (buf bufU : Nat → Batch δ) :
    QInv N (PrefetchState.init N ut lab buf bufU) := by
  have h := seg_zero N
  have h0 : seg N 0 0 = [] := seg_of_le (le_refl 0)
  cases ut <;>
  simp [QInv, PrefetchState.init, BasePrefetchingDataLayer.init, ProducerPc.iters, ProducerPc.nLoad, ProducerPc.localsOk,
    ConsumerPc.localsOk, ProducerPc.nPop, ConsumerPc.nPush, ConsumerPc.nPop, ProducerPc.nPush,
    ProducerPc.nPopU, ConsumerPc.nPopU, h, h0]

theorem ConsumerPc.nPush_of_single {c : ConsumerPc} {N K : Nat}
    (h : c.localsOk N K false) : c.nPush = 0 := by
  cases c <;> simp_all [ConsumerPc.localsOk, ConsumerPc.nPush]

theorem producerStep_QInv {δ : Type} (ld : Loader δ) (N : Nat) (s : PrefetchState δ)
    (h : QInv N s) : QInv N (producerStep ld s) := by
  obtain ⟨⟨ut, lab, pf, pfu, free, full, freeU, fullU⟩, p, c, top, loads, del, pu, po⟩ := s
  cases p with
  | loopTop =>
    cases free with
    | nil => simpa [producerStep, BlockingQueue.pop] using h
    | cons b rest =>
      simp [QInv, ProducerPc.iters, ProducerPc.nLoad, ProducerPc.localsOk, ProducerPc.nPop,
        ProducerPc.nPush, ProducerPc.nPopU, producerStep, BlockingQueue.pop] at h ⊢
      obtain ⟨h3, h4, h5, h6, h7, h8, h9, h10, h11, h12, h13⟩ := h
      obtain ⟨g1, g2, g3⟩ := seg_eq_cons h4.symm
      and_intros <;> assumption
  | gotBatch b =>
    cases ut with
    | true =>
      cases freeU with
      | nil => simpa [producerStep, BlockingQueue.pop] using h
      | cons bu rest =>
        simp [QInv, ProducerPc.iters, ProducerPc.nLoad, ProducerPc.localsOk,
          ProducerPc.nPop, ProducerPc.nPush, ProducerPc.nPopU, producerStep, BlockingQueue.pop] at h ⊢
        obtain ⟨h2, h3, h4, h5, h6, h7, h8, h9, h10, h11, h12, h13⟩ := h
        obtain ⟨g1, g2, g3⟩ := seg_eq_cons h8.symm
        and_intros <;> first | assumption | omega
    | false =>
      simp [QInv, ProducerPc.iters, ProducerPc.nLoad, ProducerPc.localsOk,
        ProducerPc.nPop, ProducerPc.nPush, ProducerPc.nPopU, producerStep] at h ⊢
      obtain ⟨h2, h3, h4, h5, h6, h7, h8, h9, h11, h12, h13⟩ := h
      have hc := ConsumerPc.nPush_of_single h3
      and_intros <;> first | assumption | omega
  | gotBoth b bu =>
    simp [QInv, ProducerPc.iters, ProducerPc.nLoad, ProducerPc.localsOk,
      ProducerPc.nPop, ProducerPc.nPush, ProducerPc.nPopU, producerStep] at h ⊢
    obtain ⟨⟨h2, h2b, h2c⟩, h3, h4, h5, h6, h7, h8, h9, h10, h11, h12, h13⟩ := h
    have := h10 h2c
    and_intros <;> first | assumption | omega
  | loaded b obu =>
    have hL : ∃ M, loads.length = M + 1 := by
      simp [QInv, ProducerPc.iters, ProducerPc.nLoad] at h
      exact ⟨_, h.1⟩
    obtain ⟨M, hM⟩ := hL
    cases ut with
    | true =>
      cases obu with
      | none => simp [QInv, ProducerPc.localsOk] at h
      | some bu =>
        simp [QInv, ProducerPc.iters, ProducerPc.nLoad, ProducerPc.localsOk,
          ProducerPc.nPop, ProducerPc.nPush, ProducerPc.nPopU, producerStep,
          BlockingQueue.push, hM] at h ⊢
        obtain ⟨⟨h2, h2b⟩, h3, h4, h5, h6, h7, h8, h9, h10, h11, h12, h13⟩ := h
        have g := seg_snoc (N := N) h6
        rw [← h5, ← h2] at g
        and_intros <;> first | assumption | omega
    | false =>
      simp [QInv, ProducerPc.iters, ProducerPc.nLoad, ProducerPc.localsOk,
        ProducerPc.nPop, ProducerPc.nPush, ProducerPc.nPopU, producerStep,
        BlockingQueue.push, hM] at h ⊢
      obtain ⟨⟨h2, h2b⟩, h3, h4, h5, h6, h7, h8, h9, h11, h12, h13⟩ := h
      have g := seg_snoc (N := N) h6
      rw [← h5, ← h2] at g
      and_intros <;> first | assumption | omega
  | pushedFull bu =>
    have hL : ∃ M, loads.length = M + 1 := by
      simp [QInv, ProducerPc.iters, ProducerPc.nLoad] at h
      exact ⟨_, h.1⟩
    obtain ⟨M, hM⟩ := hL
    simp [QInv, ProducerPc.iters, ProducerPc.nLoad, ProducerPc.localsOk,
      ProducerPc.nPop, ProducerPc.nPush, ProducerPc.nPopU, producerStep, BlockingQueue.push,
      hM] at h ⊢
    obtain ⟨⟨h2, h2b⟩, h3, h4, h5, h6, h7, h8, h9, h10, h11, h12, h13⟩ := h
    subst h2b
    simp at h8 h9 h10 ⊢
    have g := seg_snoc (N := N) h10.1
    rw [← h9, ← h2] at g
    and_intros <;> first | assumption | omega
  | exited => simp [QInv, ProducerPc.localsOk] at h

theorem consumerStep_QInv {δ : Type} (N : Nat) (s : PrefetchState δ)
    (h : QInv N s) : QInv N (consumerStep s) := by
  obtain ⟨⟨ut, lab, pf, pfu, free, full, freeU, fullU⟩, p, c, top, loads, del, pu, po⟩ := s
  cases c with
  | idle =>
    cases full with
    | nil => simpa [consumerStep, BlockingQueue.pop] using h
    | cons b rest =>
      simp [QInv, ConsumerPc.localsOk, ConsumerPc.nPop, ConsumerPc.nPush, ConsumerPc.nPopU,
        consumerStep, BlockingQueue.pop] at h ⊢
      obtain ⟨h1, h2, h4, h5, h6, h7, h8, h9, h10, h11, h12, h13⟩ := h
      obtain ⟨g1, g2, g3⟩ := seg_eq_cons h5.symm
      and_intros <;> assumption
  | popped b =>
    simpa [QInv, ConsumerPc.localsOk, ConsumerPc.nPop, ConsumerPc.nPush, ConsumerPc.nPopU,
      consumerStep] using h
  | copiedData b =>
    cases ut with
    | true =>
      cases fullU with
      | nil => simpa [consumerStep, BlockingQueue.pop] using h
      | cons bu rest =>
        simp [QInv, ConsumerPc.localsOk, ConsumerPc.nPop, ConsumerPc.nPush, ConsumerPc.nPopU,
          consumerStep, BlockingQueue.pop] at h ⊢
        obtain ⟨h1, h2, h3, h4, h5, h6, h7, h8, h9, h10, h11, h12, h13⟩ := h
        obtain ⟨g1, g2, g3⟩ := seg_eq_cons h9.symm
        and_intros <;> first | assumption | omega
    | false =>
      simpa [QInv, ConsumerPc.localsOk, ConsumerPc.nPop, ConsumerPc.nPush, ConsumerPc.nPopU,
        consumerStep] using h
  | poppedTwin b bu =>
    simp [QInv, ConsumerPc.localsOk, ConsumerPc.nPop, ConsumerPc.nPush, ConsumerPc.nPopU,
      consumerStep] at h ⊢
    obtain ⟨h1, h2, ⟨h3, h3b, h3c⟩, h4, h5, h6, h7, h8, h9, h10, h11, h12, h13⟩ := h
    subst h3c
    simp at h8 h9 h10 ⊢
    and_intros <;> first | assumption | omega
  | copiedTwin b obu =>
    cases lab <;> cases obu <;>
    simpa [QInv, ConsumerPc.localsOk, ConsumerPc.nPop, ConsumerPc.nPush, ConsumerPc.nPopU,
      consumerStep] using h
  | copiedLabel b obu =>
    cases ut with
    | true =>
      cases obu with
      | none => simp [QInv, ConsumerPc.localsOk] at h
      | some bu =>
        simp [QInv, ConsumerPc.localsOk, ConsumerPc.nPop, ConsumerPc.nPush, ConsumerPc.nPopU,
          consumerStep, BlockingQueue.push] at h ⊢
        obtain ⟨h1, h2, ⟨h3, h3b⟩, h4, h5, h6, h7, h8, h9, h10, h11, h12, h13⟩ := h
        have g := seg_push (N := N) h7 h3
        rw [← h4] at g
        and_intros <;> first | assumption | omega
    | false =>
      simp [QInv, ConsumerPc.localsOk, ConsumerPc.nPop, ConsumerPc.nPush, ConsumerPc.nPopU,
        consumerStep, BlockingQueue.push] at h ⊢
      obtain ⟨h1, h2, ⟨h3, h3b⟩, h4, h5, h6, h7, h8, h9, h11, h12, h13⟩ := h
      have g := seg_push (N := N) h7 h3
      rw [← h4] at g
      and_intros <;> first | assumption | omega
  | pushedFree bu =>
    simp [QInv, ConsumerPc.localsOk, ConsumerPc.nPop, ConsumerPc.nPush, ConsumerPc.nPopU,
      consumerStep, BlockingQueue.push] at h ⊢
    obtain ⟨h1, h2, ⟨h3, h3b⟩, h4, h5, h6, h7, h8, h9, h10, h11, h12, h13⟩ := h
    subst h3b
    simp at h8 h9 h10 ⊢
    have g := seg_push (N := N) h10.2 h3
    rw [← h8] at g
    and_intros <;> first | assumption | omega

theorem mod_ne_of_lt {N j L : Nat} (h1 : j < L) (h2 : L < j + N) : j % N ≠ L % N := by
  intro h
  have h3 : (L - j) % N = 0 := Nat.sub_mod_eq_zero_of_mod_eq h.symm
  have h4 : (L - j) % N = L - j := Nat.mod_eq_of_lt (by omega)
  omega

theorem init_CInv {δ : Type} (N : Nat) (ut lab : Bool) (buf bufU : Nat → Batch δ) :
    CInv N (PrefetchState.init N ut lab buf bufU) := by
  simp [CInv, PrefetchState.init, BasePrefetchingDataLayer.init, ConsumerPc.stage]

theorem ConsumerPc.nPop_of_stage {c : ConsumerPc} (h : 1 ≤ c.stage) : c.nPop = 1 := by
  cases c <;> simp_all [ConsumerPc.stage, ConsumerPc.nPop]

theorem QInv.lt_loads {δ : Type} {N : Nat} {s : PrefetchState δ} (h : QInv N s)
    (hs : 1 ≤ s.consumer.stage) : s.delivered.length < s.loads.length := by
  have h1 := ConsumerPc.nPop_of_stage hs
  obtain ⟨g1, -, -, -, -, g6, -⟩ := h
  have : s.producer.nPush ≤ s.producer.nLoad := by
    cases s.producer <;> simp [ProducerPc.nPush, ProducerPc.nLoad]
  omega

theorem producerStep_CInv {δ : Type} (ld : Loader δ) (N : Nat) (s : PrefetchState δ)
    (hq : QInv N s) (h : CInv N s) : CInv N (producerStep ld s) := by
  have hq' := producerStep_QInv ld N s hq
  have hlt := hq.lt_loads
  obtain ⟨⟨ut, lab, pf, pfu, free, full, freeU, fullU⟩, p, c, top, loads, del, pu, po⟩ := s
  cases p with
  | loopTop =>
    cases free <;> simpa [producerStep, BlockingQueue.pop, CInv] using h
  | gotBatch b =>
    cases ut with
    | true => cases freeU <;> simpa [producerStep, BlockingQueue.pop, CInv] using h
    | false =>
      simp [QInv, ProducerPc.iters, ProducerPc.nLoad, ProducerPc.localsOk,
        ProducerPc.nPop, ProducerPc.nPush, ProducerPc.nPopU, producerStep] at hq hq'
      simp [CInv, producerStep] at h hlt ⊢
      obtain ⟨h1, h2, h4, h5, h6, h7⟩ := h
      have hb := hq.1
      have hLK : loads.length + 1 ≤ del.length + N := hq'.2.2.2.2.2.2.2.2.1
      have hKL : del.length ≤ loads.length := by have := hq.2.2.2.2.1; omega
      refine ⟨?_, ?_, ?_, h5, h6, ?_⟩
      · intro j hj1 hj2
        rcases Nat.lt_or_ge j loads.length with hj | hj
        · rw [List.getElem?_append_left hj, h1 j hj1 hj]
          have hne : j % N ≠ b := by rw [hb]; exact mod_ne_of_lt hj (by omega)
          simp [Function.update_noteq hne]
        · have hj3 : j = loads.length := by omega
          subst hj3
          have e : ∀ v, Function.update pf b v (loads.length % N) = v := by
            intro v; rw [← hb]; exact Function.update_same _ _ _
          simp [e]
      · intro hs
        have := hlt (by omega)
        rw [List.getElem?_append_left this]
        exact h2 hs
      · intro hs hu
        have := hlt (by omega)
        rw [List.getElem?_append_left this]
        exact h4 hs hu
      · rw [List.take_append_of_le_length (by simpa using hKL)]
        exact h7
  | gotBoth b bu =>
    simp [QInv, ProducerPc.iters, ProducerPc.nLoad, ProducerPc.localsOk,
      ProducerPc.nPop, ProducerPc.nPush, ProducerPc.nPopU, producerStep] at hq hq'
    obtain ⟨⟨hb, hbu, hut⟩, -⟩ := hq
    subst hut
    simp [CInv, producerStep] at h hlt ⊢
    obtain ⟨h1, h2, h3, h4, h6, h7⟩ := h
    have hLK : loads.length + 1 ≤ del.length + N := hq'.2.2.2.2.2.2.2.2.2.1
    have hKL : del.length ≤ loads.length := by have := hq'.2.2.2.2.1; omega
    refine ⟨?_, ?_, ?_, ?_, h6, ?_⟩
    · intro j hj1 hj2
      rcases Nat.lt_or_ge j loads.length with hj | hj
      · rw [List.getElem?_append_left hj, h1 j hj1 hj]
        have hne : j % N ≠ b := by rw [hb]; exact mod_ne_of_lt hj (by omega)
        have hne2 : j % N ≠ bu := by rw [hbu]; exact mod_ne_of_lt hj (by omega)
        simp [Function.update_noteq hne, Function.update_noteq hne2]
      · have hj3 : j = loads.length := by omega
        subst hj3
        have e : ∀ v, Function.update pf b v (loads.length % N) = v := by
          intro v; rw [← hb]; exact Function.update_same _ _ _
        have e2 : ∀ v, Function.update pfu bu v (loads.length % N) = v := by
          intro v; rw [← hbu]; exact Function.update_same _ _ _
        simp [e, e2]
    · intro hs
      have := hlt (by omega)
      rw [List.getElem?_append_left this]
      exact h2 hs
    · intro hs
      have := hlt (by omega)
      rw [List.getElem?_append_left this]
      exact h3 hs
    · intro hs hu
      have := hlt (by omega)
      rw [List.getElem?_append_left this]
      exact h4 hs hu
    · rw [List.take_append_of_le_length (by simpa using hKL)]
      exact h7
  | loaded b obu =>
    cases ut <;> cases obu <;> simpa [producerStep, BlockingQueue.push, CInv] using h
  | pushedFull bu => simpa [producerStep, BlockingQueue.push, CInv] using h
  | exited => simpa [producerStep] using h

theorem deliver_eq {δ : Type} {lab : Bool} {top : Top δ} {del : List (Top δ)}
    {loads : List (Batch δ × Option (Batch δ))} {l : Batch δ × Option (Batch δ)}
    (hl : loads[del.length]? = some l) (ht : top = Top.ofLoad lab l)
    (h7 : del = (loads.take del.length).map (Top.ofLoad lab)) :
    del ++ [top] = (loads.take (del ++ [top]).length).map (Top.ofLoad lab) := by
  rw [List.length_append, List.length_singleton, List.take_succ, hl]
  simp [← h7, ht]

theorem consumerStep_CInv {δ : Type} (N : Nat) (s : PrefetchState δ)
    (hq : QInv N s) (h : CInv N s) : CInv N (consumerStep s) := by
  have hlt := hq.lt_loads
  obtain ⟨⟨ut, lab, pf, pfu, free, full, freeU, fullU⟩, p, c, top, loads, del, pu, po⟩ := s
  obtain ⟨data, label, untr⟩ := top
  have hc : c.localsOk N del.length ut := hq.2.2.1
  cases c with
  | idle =>
    cases full with
    | nil => simpa [consumerStep, BlockingQueue.pop] using h
    | cons b rest =>
      simp [CInv, consumerStep, BlockingQueue.pop, ConsumerPc.stage] at h ⊢
      obtain ⟨h1, h5, h6, h7⟩ := h
      exact ⟨h1, h5, h6, h7⟩
  | popped b =>
    simp [CInv, consumerStep, ConsumerPc.stage, ConsumerPc.localsOk] at h hlt hc ⊢
    obtain ⟨h1, h5, h6, h7⟩ := h
    refine ⟨h1, ?_, h5, h6, h7⟩
    rw [h1 _ (le_refl _) hlt, hc]
    rfl
  | copiedData b =>
    cases ut with
    | true =>
      cases fullU with
      | nil => simpa [consumerStep, BlockingQueue.pop] using h
      | cons bu rest =>
        simp [CInv, consumerStep, BlockingQueue.pop, ConsumerPc.stage] at h ⊢
        exact h
    | false =>
      simp [CInv, consumerStep, ConsumerPc.stage] at h ⊢
      exact h
  | poppedTwin b bu =>
    simp [CInv, consumerStep, ConsumerPc.stage, ConsumerPc.localsOk] at h hlt hc ⊢
    obtain ⟨hb, hbu, hut⟩ := hc
    subst hut
    simp at h ⊢
    obtain ⟨h1, h2, h6, h7⟩ := h
    refine ⟨h1, h2, ?_, h6, h7⟩
    rw [h1 _ (le_refl _) hlt, hbu]
    rfl
  | copiedTwin b obu =>
    cases lab with
    | true =>
      simp [CInv, consumerStep, ConsumerPc.stage, ConsumerPc.localsOk] at h hlt hc ⊢
      obtain ⟨h1, h2, h3, h5, h7⟩ := h
      refine ⟨h1, h2, h3, ?_, h5, h7⟩
      rw [h1 _ (le_refl _) hlt, hc.1]
      rfl
    | false =>
      simp [CInv, consumerStep, ConsumerPc.stage] at h ⊢
      exact h
  | copiedLabel b obu =>
    cases ut with
    | true =>
      cases obu with
      | none => simp [ConsumerPc.localsOk] at hc
      | some bu =>
        simp [CInv, consumerStep, BlockingQueue.push, ConsumerPc.stage] at h ⊢
        exact h
    | false =>
      simp [CInv, ConsumerPc.stage] at h hlt
      obtain ⟨h1, h2, h4, h5, h6, h7⟩ := h
      have hl := h1 _ (le_refl _) hlt
      simp only [CInv, consumerStep, BlockingQueue.push, ConsumerPc.stage]
      refine ⟨?_, ?_, ?_, ?_, ?_, ?_, ?_⟩
      · intro j hj1 hj2
        simp at hj1 hj2 ⊢
        exact h1 j (by omega) hj2
      · intro hs; simp at hs
      · intro hs; simp at hs
      · intro hs; simp at hs
      · intro _; exact h5
      · exact h6
      · have h7b : del = (loads.take del.length).map (Top.ofLoad lab) := by
          rw [List.map_take]; exact h7
        apply deliver_eq hl _ h7b
        clear h7 h7b hq h1
        cases lab <;> simp_all [Top.ofLoad]
  | pushedFree bu =>
    simp [CInv, ConsumerPc.stage, ConsumerPc.localsOk] at h hlt hc
    obtain ⟨hbu, hut⟩ := hc
    subst hut
    simp at h
    obtain ⟨h1, h2, h3, h4, h6, h7⟩ := h
    have hl := h1 _ (le_refl _) hlt
    simp only [CInv, consumerStep, BlockingQueue.push, ConsumerPc.stage]
    refine ⟨?_, ?_, ?_, ?_, ?_, ?_, ?_⟩
    · intro j hj1 hj2
      simp at hj1 hj2 ⊢
      exact h1 j (by omega) hj2
    · intro hs; simp at hs
    · intro hs; simp at hs
    · intro hs; simp at hs
    · intro hu; simp at hu
    · exact h6
    · have h7b : del = (loads.take del.length).map (Top.ofLoad lab) := by
        rw [List.map_take]; exact h7
      apply deliver_eq hl _ h7b
      clear h7 h7b hq h1
      cases lab <;> simp_all [Top.ofLoad]

theorem seg_append {N a b c : Nat} (h1 : a ≤ b) (h2 : b ≤ c) :
    seg N a b ++ seg N b c = seg N a c := by
  unfold seg
  rw [← List.map_append]
  congr 1
  have e1 : c - a = (c - b) + (b - a) := by omega
  have e2 : List.range' b (c - b) = List.range' (a + (b - a)) (c - b) := by
    congr 1; omega
  rw [e1, e2]
  exact (List.range'_append_1 a (b - a) (c - b))

theorem seg_perm_range (N d : Nat) : (seg N d (d + N)).Perm (List.range N) := by
  induction d with
  | zero => simp [seg_zero]
  | succ d ih =>
    rcases Nat.eq_zero_or_pos N with hN | hN
    · subst hN; simp [seg]
    · have e1 : seg N d (d + N) = d % N :: seg N (d + 1) (d + N) := seg_cons (by omega)
      have e2 : seg N (d + 1) (d + 1 + N) = seg N (d + 1) (d + N) ++ [d % N] := by
        have := seg_snoc (N := N) (a := d + 1) (b := d + N) (by omega)
        rw [show d + 1 + N = d + N + 1 by omega, ← this]
        simp
      rw [e2]
      rw [e1] at ih
      exact (List.perm_append_singleton _ _).trans ih

theorem ProducerPc.producer_held_eq {p : ProducerPc} {N I : Nat} {ut : Bool} (h : p.localsOk N I ut) :
    p.held = seg N (I + p.nPush) (I + p.nPop) ∧ p.heldU = seg N I (I + p.nPopU) := by
  have e1 : seg N I (I + 1) = [I % N] := by rw [seg_cons (by omega), seg_of_le (le_refl _)]
  have e0 : ∀ a, seg N a a = [] := fun a => seg_of_le (le_refl _)
  cases p with
  | loaded b obu =>
    cases ut <;>
    simp_all [ProducerPc.localsOk, ProducerPc.held, ProducerPc.heldU, ProducerPc.nPush,
      ProducerPc.nPop, ProducerPc.nPopU]
  | _ =>
    simp_all [ProducerPc.localsOk, ProducerPc.held, ProducerPc.heldU, ProducerPc.nPush,
      ProducerPc.nPop, ProducerPc.nPopU]

theorem ConsumerPc.consumer_held_eq {c : ConsumerPc} {N K : Nat} {ut : Bool} (h : c.localsOk N K ut) :
    c.held = seg N (K + c.nPush) (K + c.nPop) ∧ c.heldU = seg N K (K + c.nPopU) := by
  have e1 : seg N K (K + 1) = [K % N] := by rw [seg_cons (by omega), seg_of_le (le_refl _)]
  have e0 : ∀ a, seg N a a = [] := fun a => seg_of_le (le_refl _)
  cases c with
  | copiedTwin b obu =>
    cases ut <;>
    simp_all [ConsumerPc.localsOk, ConsumerPc.held, ConsumerPc.heldU, ConsumerPc.nPush,
      ConsumerPc.nPop, ConsumerPc.nPopU]
  | copiedLabel b obu =>
    cases ut <;>
    simp_all [ConsumerPc.localsOk, ConsumerPc.held, ConsumerPc.heldU, ConsumerPc.nPush,
      ConsumerPc.nPop, ConsumerPc.nPopU]
  | _ =>
    simp_all [ConsumerPc.localsOk, ConsumerPc.held, ConsumerPc.heldU, ConsumerPc.nPush,
      ConsumerPc.nPop, ConsumerPc.nPopU]

theorem ProducerPc.producer_nPush_le_nPop (p : ProducerPc) : p.nPush ≤ p.nPop := by
  cases p <;> simp [ProducerPc.nPush, ProducerPc.nPop]

theorem ConsumerPc.consumer_nPush_le_nPop (c : ConsumerPc) : c.nPush ≤ c.nPop := by
  cases c <;> simp [ConsumerPc.nPush, ConsumerPc.nPop]

/-- The four places of the primary pool, read in round-robin order, are the `N` buffers. -/
theorem QInv.primary_perm {δ : Type} {N : Nat} {s : PrefetchState δ} (h : QInv N s) :
    (s.layer.prefetch_free_ ++ s.layer.prefetch_full_ ++ s.producer.held ++ s.consumer.held).Perm
      (List.range N) := by
  obtain ⟨-, h2, h3, h4, h5, h6, h7, -⟩ := h
  have hp := (ProducerPc.producer_held_eq h2).1
  have hc := (ConsumerPc.consumer_held_eq h3).1
  have e : s.consumer.held ++ s.layer.prefetch_full_ ++ s.producer.held ++ s.layer.prefetch_free_
      = seg N (s.delivered.length + s.consumer.nPush) (s.delivered.length + s.consumer.nPush + N) := by
    have := s.producer.producer_nPush_le_nPop
    have := s.consumer.consumer_nPush_le_nPop
    rw [hp, hc, h4, h5, seg_append (by omega) (by omega), seg_append (by omega) (by omega),
      seg_append (by omega) (by omega)]
  refine List.Perm.trans ?_ (e ▸ seg_perm_range N _)
  generalize s.layer.prefetch_free_ = A
  generalize s.layer.prefetch_full_ = B
  generalize s.producer.held = C
  generalize s.consumer.held = D
  have p1 : (A ++ B ++ C ++ D).Perm (D ++ (A ++ B ++ C)) := List.perm_append_comm
  have p2 : (D ++ B ++ C ++ A).Perm (D ++ (A ++ B ++ C)) := by
    rw [List.append_assoc, List.append_assoc]
    apply List.Perm.append_left
    rw [List.append_assoc A B C, ← List.append_assoc B C A]
    exact @List.perm_append_comm _ (B ++ C) A
  exact p1.trans p2.symm

/-- The four places of the twin pool are the `N` twin buffers. -/
theorem QInv.twin_perm {δ : Type} {N : Nat} {s : PrefetchState δ} (h : QInv N s)
    (hut : s.layer.untransformed_top_ = true) :
    (s.layer.prefetch_free_untransformed_ ++ s.layer.prefetch_full_untransformed_
      ++ s.producer.heldU ++ s.consumer.heldU).Perm (List.range N) := by
  obtain ⟨-, h2, h3, -, -, -, -, h8, h9, h10, -⟩ := h
  have hp := (ProducerPc.producer_held_eq h2).2
  have hc := (ConsumerPc.consumer_held_eq h3).2
  rw [hut] at h8 h9
  simp only [if_true] at h8 h9
  have h10 := h10 hut
  have e : s.consumer.heldU ++ s.layer.prefetch_full_untransformed_ ++ s.producer.heldU
      ++ s.layer.prefetch_free_untransformed_
      = seg N s.delivered.length (s.delivered.length + N) := by
    rw [hp, hc, h8, h9, seg_append (by omega) (by omega), seg_append (by omega) (by omega),
      seg_append (by omega) (by omega)]
  refine List.Perm.trans ?_ (e ▸ seg_perm_range N _)
  generalize s.layer.prefetch_free_untransformed_ = A
  generalize s.layer.prefetch_full_untransformed_ = B
  generalize s.producer.heldU = C
  generalize s.consumer.heldU = D
  have p1 : (A ++ B ++ C ++ D).Perm (D ++ (A ++ B ++ C)) := List.perm_append_comm
  have p2 : (D ++ B ++ C ++ A).Perm (D ++ (A ++ B ++ C)) := by
    rw [List.append_assoc, List.append_assoc]
    apply List.Perm.append_left
    rw [List.append_assoc A B C, ← List.append_assoc B C A]
    exact @List.perm_append_comm _ (B ++ C) A
  exact p1.trans p2.symm

theorem run_cons {δ : Type} (ld : Loader δ) (a : Actor) (sched : List Actor)
    (s : PrefetchState δ) : run ld (a :: sched) s = run ld sched (step ld a s) := rfl

theorem step_inv {δ : Type} (ld : Loader δ) (N : Nat) (a : Actor) (s : PrefetchState δ)
    (h : QInv N s ∧ CInv N s) : QInv N (step ld a s) ∧ CInv N (step ld a s) := by
  cases a with
  | producer => exact ⟨producerStep_QInv ld N s h.1, producerStep_CInv ld N s h.1 h.2⟩
  | consumer => exact ⟨consumerStep_QInv N s h.1, consumerStep_CInv N s h.1 h.2⟩

theorem run_inv {δ : Type} (ld : Loader δ) (N : Nat) (sched : List Actor) (s : PrefetchState δ)
    (h : QInv N s ∧ CInv N s) : QInv N (run ld sched s) ∧ CInv N (run ld sched s) := by
  induction sched generalizing s with
  | nil => exact h
  | cons a rest ih => exact ih _ (step_inv ld N a s h)

theorem reach_inv {δ : Type} (ld : Loader δ) (N : Nat) (ut lab : Bool) (buf bufU : Nat → Batch δ)
    (sched : List Actor) :
    QInv N (run ld sched (PrefetchState.init N ut lab buf bufU)) ∧
    CInv N (run ld sched (PrefetchState.init N ut lab buf bufU)) :=
  run_inv ld N sched _ ⟨init_QInv N ut lab buf bufU, init_CInv N ut lab buf bufU⟩

theorem step_flags {δ : Type} (ld : Loader δ) (a : Actor) (s : PrefetchState δ) :
    (step ld a s).layer.untransformed_top_ = s.layer.untransformed_top_ ∧
    (step ld a s).layer.output_labels_ = s.layer.output_labels_ := by
  obtain ⟨⟨ut, lab, pf, pfu, free, full, freeU, fullU⟩, p, c, top, loads, del, pu, po⟩ := s
  cases a with
  | producer =>
    cases p with
    | loopTop => cases free <;> simp [step, producerStep, BlockingQueue.pop]
    | gotBatch b => cases ut <;> cases freeU <;> simp [step, producerStep, BlockingQueue.pop]
    | loaded b obu => cases ut <;> cases obu <;> simp [step, producerStep]
    | _ => simp [step, producerStep]
  | consumer =>
    cases c with
    | idle => cases full <;> simp [step, consumerStep, BlockingQueue.pop]
    | copiedData b => cases ut <;> cases fullU <;> simp [step, consumerStep, BlockingQueue.pop]
    | copiedTwin b obu => cases lab <;> simp [step, consumerStep]
    | copiedLabel b obu => cases ut <;> cases obu <;> simp [step, consumerStep]
    | _ => simp [step, consumerStep]

theorem run_flags {δ : Type} (ld : Loader δ) (sched : List Actor) (s : PrefetchState δ) :
    (run ld sched s).layer.untransformed_top_ = s.layer.untransformed_top_ ∧
    (run ld sched s).layer.output_labels_ = s.layer.output_labels_ := by
  induction sched generalizing s with
  | nil => exact ⟨rfl, rfl⟩
  | cons a rest ih =>
    rw [run_cons]
    exact ⟨(ih _).1.trans (step_flags ld a s).1, (ih _).2.trans (step_flags ld a s).2⟩

theorem seg_one (N a : Nat) : seg N a (a + 1) = [a % N] := by
  rw [seg_cons (by omega), seg_of_le (le_refl _)]

theorem seg_self (N a : Nat) : seg N a a = [] := seg_of_le (le_refl _)

theorem init_SInv {σ δ : Type} (N : Nat) (lab : Bool) (buf : Nat → SparseBatch σ δ) :
    SInv N (SparsePrefetchState.init N lab buf) := by
  simp [SInv, SparsePrefetchState.init, BasePrefetchingSparseDataLayer.init,
    SparseProducerPc.nLoad, SparseProducerPc.nPop, SparseConsumerPc.nPop,
    SparseProducerPc.held, SparseConsumerPc.held, seg_self, seg_zero]

theorem sparseProducerStep_SInv {σ δ : Type} (ld : Nat → SparseBatch σ δ → SparseBatch σ δ)
    (N : Nat) (s : SparsePrefetchState σ δ) (h : SInv N s) : SInv N (sparseProducerStep ld s) := by
  obtain ⟨⟨lab, pf, free, full⟩, p, c, td, tl, loads, calls⟩ := s
  cases p with
  | loopTop =>
    cases free with
    | nil => simpa [sparseProducerStep, BlockingQueue.pop] using h
    | cons b rest =>
      simp [SInv, SparseProducerPc.nLoad, SparseProducerPc.nPop, SparseProducerPc.held,
        sparseProducerStep, BlockingQueue.pop, seg_self, seg_one] at h ⊢
      obtain ⟨h4, h5, h6, h7, h8⟩ := h
      obtain ⟨g1, g2, g3⟩ := seg_eq_cons h5.symm
      and_intros <;> assumption
  | gotBatch b =>
    simp [SInv, SparseProducerPc.nLoad, SparseProducerPc.nPop, SparseProducerPc.held,
      sparseProducerStep, seg_self, seg_one] at h ⊢
    exact h
  | loaded b =>
    have hL : ∃ M, loads = M + 1 := by
      simp [SInv, SparseProducerPc.nLoad] at h
      exact ⟨_, h.1⟩
    obtain ⟨M, hM⟩ := hL
    subst hM
    simp [SInv, SparseProducerPc.nLoad, SparseProducerPc.nPop, SparseProducerPc.held,
      sparseProducerStep, BlockingQueue.push, seg_self, seg_one] at h ⊢
    obtain ⟨h3, h4, h5, h6, h7, h8⟩ := h
    have g := seg_snoc (N := N) h7
    rw [← h6, ← h3] at g
    and_intros <;> first | assumption | omega
  | exited => simp [SInv] at h

theorem sparseConsumerStep_SInv {σ δ : Type} (st : Bool)
    (N : Nat) (s : SparsePrefetchState σ δ) (h : SInv N s) : SInv N (sparseConsumerStep st s) := by
  obtain ⟨⟨lab, pf, free, full⟩, p, c, td, tl, loads, calls⟩ := s
  cases c with
  | idle =>
    cases full with
    | nil => simpa [sparseConsumerStep, BlockingQueue.pop] using h
    | cons b rest =>
      simp [SInv, SparseConsumerPc.nPop, SparseConsumerPc.held,
        sparseConsumerStep, BlockingQueue.pop, seg_self, seg_one] at h ⊢
      obtain ⟨h1, h2, h3, h5, h6, h7, h8⟩ := h
      obtain ⟨g1, g2, g3⟩ := seg_eq_cons h6.symm
      and_intros <;> assumption
  | popped b =>
    cases st <;>
    simpa [SInv, SparseConsumerPc.nPop, SparseConsumerPc.held, sparseConsumerStep] using h
  | copiedData b =>
    cases lab <;>
    simpa [SInv, SparseConsumerPc.nPop, SparseConsumerPc.held, sparseConsumerStep] using h
  | copiedLabel b =>
    simp [SInv, SparseConsumerPc.nPop, SparseConsumerPc.held,
      sparseConsumerStep, BlockingQueue.push, seg_self, seg_one] at h ⊢
    obtain ⟨h1, h2, h3, h4, h5, h6, h7, h8⟩ := h
    have g := seg_push (N := N) h8 h4
    rw [← h5] at g
    and_intros <;> first | assumption | omega
  | aborted b => simpa [sparseConsumerStep] using h

theorem sparseStep_SInv {σ δ : Type} (ld : Nat → SparseBatch σ δ → SparseBatch σ δ) (st : Bool)
    (N : Nat) (a : Actor) (s : SparsePrefetchState σ δ) (h : SInv N s) :
    SInv N (sparseStep ld st a s) := by
  unfold sparseStep
  split
  · exact h
  · exact sparseProducerStep_SInv ld N s h
  · exact sparseConsumerStep_SInv st N s h

theorem sparseRun_SInv {σ δ : Type} (ld : Nat → SparseBatch σ δ → SparseBatch σ δ) (st : Bool)
    (N : Nat) (sched : List Actor) (s : SparsePrefetchState σ δ) (h : SInv N s) :
    SInv N (sparseRun ld st sched s) := by
  induction sched generalizing s with
  | nil => exact h
  | cons a rest ih => exact ih _ (sparseStep_SInv ld st N a s h)

/-- The four places of the sparse pool are the `N` buffers. -/
theorem SInv.perm {σ δ : Type} {N : Nat} {s : SparsePrefetchState σ δ} (h : SInv N s) :
    (s.layer.prefetch_free_ ++ s.layer.prefetch_full_ ++ s.producer.held ++ s.consumer.held).Perm
      (List.range N) := by
  obtain ⟨-, -, h3, h4, h5, h6, h7, h8⟩ := h
  have e : s.consumer.held ++ s.layer.prefetch_full_ ++ s.producer.held ++ s.layer.prefetch_free_
      = seg N s.calls (s.calls + N) := by
    rw [h3, h4, h5, h6, seg_append (by omega) (by omega), seg_append (by omega) (by omega),
      seg_append (by omega) (by omega)]
  refine List.Perm.trans ?_ (e ▸ seg_perm_range N _)
  generalize s.layer.prefetch_free_ = A
  generalize s.layer.prefetch_full_ = B
  generalize s.producer.held = C
  generalize s.consumer.held = D
  have p1 : (A ++ B ++ C ++ D).Perm (D ++ (A ++ B ++ C)) := List.perm_append_comm
  have p2 : (D ++ B ++ C ++ A).Perm (D ++ (A ++ B ++ C)) := by
    rw [List.append_assoc, List.append_assoc]
    apply List.Perm.append_left
    rw [List.append_assoc A B C, ← List.append_assoc B C A]
    exact @List.perm_append_comm _ (B ++ C) A
  exact p1.trans p2.symm

theorem perm_range_facts {l : List Nat} {N : Nat} (h : l.Perm (List.range N)) :
    l.length = N ∧ l.Nodup ∧ ∀ b, b ∈ l ↔ b < N := by
  refine ⟨by simpa using h.length_eq, h.nodup_iff.mpr (List.nodup_range N), ?_⟩
  intro b
  rw [h.mem_iff]
  exact List.mem_range

theorem sparseReach_SInv {σ δ : Type} (ld : Nat → SparseBatch σ δ → SparseBatch σ δ) (st : Bool)
    (N : Nat) (lab : Bool) (buf : Nat → SparseBatch σ δ) (sched : List Actor) :
    SInv N (sparseRun ld st sched (SparsePrefetchState.init N lab buf)) :=
  sparseRun_SInv ld st N sched _ (init_SInv N lab buf)

theorem reach_flags {δ : Type} (ld : Loader δ) (N : Nat) (ut lab : Bool) (buf bufU : Nat → Batch δ)
    (sched : List Actor) :
    (run ld sched (PrefetchState.init N ut lab buf bufU)).layer.untransformed_top_ = ut ∧
    (run ld sched (PrefetchState.init N ut lab buf bufU)).layer.output_labels_ = lab :=
  run_flags ld sched _

theorem step_TInv {δ : Type} (ld : Loader δ) (N : Nat) (a : Actor) (s : PrefetchState δ)
    (hq : QInv N s) (h : TInv s) : TInv (step ld a s) := by
  obtain ⟨⟨ut, lab, pf, pfu, free, full, freeU, fullU⟩, p, c, top, loads, del, pu, po⟩ := s
  cases a with
  | producer =>
    cases p with
    | loopTop => cases free <;> simpa [step, producerStep, BlockingQueue.pop, TInv] using h
    | gotBatch b =>
      cases ut with
      | true => cases freeU <;> simpa [step, producerStep, BlockingQueue.pop, TInv] using h
      | false =>
        simp [step, producerStep, TInv] at h ⊢
        intro a b hab
        rcases hab with hab | hab
        · exact h a b hab
        · simp [hab.2]
    | gotBoth b bu =>
      have hut : ut = true := by
        simp [QInv, ProducerPc.localsOk] at hq
        exact hq.2.1.2.2
      subst hut
      simp [step, producerStep, TInv] at h ⊢
      intro a b hab
      rcases hab with hab | hab
      · exact h a b hab
      · simp [hab.2]
    | loaded b obu => cases ut <;> cases obu <;> simpa [step, producerStep, TInv] using h
    | pushedFull bu => simpa [step, producerStep, TInv] using h
    | exited => simpa [step, producerStep, TInv] using h
  | consumer =>
    cases c with
    | idle => cases full <;> simpa [step, consumerStep, BlockingQueue.pop, TInv] using h
    | copiedData b =>
      cases ut <;> cases fullU <;> simpa [step, consumerStep, BlockingQueue.pop, TInv] using h
    | copiedTwin b obu => cases lab <;> simpa [step, consumerStep, TInv] using h
    | copiedLabel b obu => cases ut <;> cases obu <;> simpa [step, consumerStep, TInv] using h
    | _ => simpa [step, consumerStep, TInv] using h

theorem run_TInv {δ : Type} (ld : Loader δ) (N : Nat) (sched : List Actor) (s : PrefetchState δ)
    (hq : QInv N s ∧ CInv N s) (h : TInv s) : TInv (run ld sched s) := by
  induction sched generalizing s with
  | nil => exact h
  | cons a rest ih => exact ih _ (step_inv ld N a s hq) (step_TInv ld N a s hq.1 h)

theorem reach_TInv {δ : Type} (ld : Loader δ) (N : Nat) (ut lab : Bool) (buf bufU : Nat → Batch δ)
    (sched : List Actor) : TInv (run ld sched (PrefetchState.init N ut lab buf bufU)) :=
  run_TInv ld N sched _ ⟨init_QInv N ut lab buf bufU, init_CInv N ut lab buf bufU⟩
    (by simp [TInv, PrefetchState.init])

theorem run_append {δ : Type} (ld : Loader δ) (a b : List Actor) (s : PrefetchState δ) :
    run ld (a ++ b) s = run ld b (run ld a s) := by
  simp [run, List.foldl_append]

theorem round_progress {δ : Type} (ld : Loader δ) (N : Nat) (s : PrefetchState δ)
    (hq : QInv N s) (hp : s.producer = .loopTop) (hc : s.consumer = .idle)
    (hL : s.loads.length = s.delivered.length) (hN : 0 < N) :
    (run ld (roundSchedule s.layer.untransformed_top_) s).producer = .loopTop ∧
    (run ld (roundSchedule s.layer.untransformed_top_) s).consumer = .idle ∧
    (run ld (roundSchedule s.layer.untransformed_top_) s).loads.length = s.loads.length + 1 ∧
    (run ld (roundSchedule s.layer.untransformed_top_) s).delivered.length
      = s.delivered.length + 1 := by
  obtain ⟨⟨ut, lab, pf, pfu, free, full, freeU, fullU⟩, p, c, top, loads, del, pu, po⟩ := s
  simp only at hp hc hL
  subst hp hc
  simp [QInv, ProducerPc.iters, ProducerPc.nLoad, ProducerPc.localsOk, ProducerPc.nPop,
    ProducerPc.nPush, ProducerPc.nPopU, ConsumerPc.localsOk, ConsumerPc.nPop,
    ConsumerPc.nPush, ConsumerPc.nPopU, hL, seg_self] at hq
  obtain ⟨h4, h5, h8, h9, -⟩ := hq
  rw [seg_cons (by omega)] at h4
  subst h4 h5
  cases ut with
  | true =>
    simp [seg_self] at h8 h9
    rw [seg_cons (by omega)] at h8
    subst h8 h9
    cases lab <;>
    simp [roundSchedule, run, step, producerStep, consumerStep, BlockingQueue.pop,
      BlockingQueue.push, hL]
  | false =>
    cases lab <;>
    simp [roundSchedule, run, step, producerStep, consumerStep, BlockingQueue.pop,
      BlockingQueue.push, hL]

theorem rounds_progress {δ : Type} (ld : Loader δ) (N : Nat) (ut lab : Bool)
    (buf bufU : Nat → Batch δ) (hN : 0 < N) (k : Nat) :
    (run ld (roundsSchedule ut k) (PrefetchState.init N ut lab buf bufU)).producer = .loopTop ∧
    (run ld (roundsSchedule ut k) (PrefetchState.init N ut lab buf bufU)).consumer = .idle ∧
    (run ld (roundsSchedule ut k) (PrefetchState.init N ut lab buf bufU)).loads.length = k ∧
    (run ld (roundsSchedule ut k) (PrefetchState.init N ut lab buf bufU)).delivered.length = k := by
  induction k with
  | zero => simp [roundsSchedule, run, PrefetchState.init]
  | succ k ih =>
    obtain ⟨h1, h2, h3, h4⟩ := ih
    have hq := (reach_inv ld N ut lab buf bufU (roundsSchedule ut k)).1
    have hf := (reach_flags ld N ut lab buf bufU (roundsSchedule ut k)).1
    have := round_progress ld N _ hq h1 h2 (h3.trans h4.symm) hN
    rw [hf, h3, h4] at this
    simp only [roundsSchedule, run_append]
    exact this

theorem round_pairing {δ : Type} (ld : Loader δ) (N : Nat) (s : PrefetchState δ)
    (hq : QInv N s) (hp : s.producer = .loopTop) (hc : s.consumer = .idle)
    (hL : s.loads.length = s.delivered.length) (hN : 0 < N)
    (hut : s.layer.untransformed_top_ = true) :
    (run ld [Actor.producer, Actor.producer] s).producer
      = .gotBoth (s.delivered.length % N) (s.delivered.length % N) ∧
    (run ld (List.replicate 5 Actor.producer ++ List.replicate 3 Actor.consumer) s).consumer
      = .poppedTwin (s.delivered.length % N) (s.delivered.length % N) := by
  obtain ⟨⟨ut, lab, pf, pfu, free, full, freeU, fullU⟩, p, c, top, loads, del, pu, po⟩ := s
  simp only at hp hc hL hut
  subst hp hc hut
  simp [QInv, ProducerPc.iters, ProducerPc.nLoad, ProducerPc.localsOk, ProducerPc.nPop,
    ProducerPc.nPush, ProducerPc.nPopU, ConsumerPc.localsOk, ConsumerPc.nPop,
    ConsumerPc.nPush, ConsumerPc.nPopU, hL, seg_self] at hq
  obtain ⟨h4, h5, h8, h9, -⟩ := hq
  rw [seg_cons (by omega)] at h4 h8
  subst h4 h5 h8 h9
  constructor <;>
  simp [run, step, producerStep, consumerStep, BlockingQueue.pop, BlockingQueue.push, hL]

theorem rounds_pairing {δ : Type} (ld : Loader δ) (N : Nat) (lab : Bool)
    (buf bufU : Nat → Batch δ) (hN : 0 < N) (k : Nat) :
    (run ld (roundsSchedule true k ++ [Actor.producer, Actor.producer])
      (PrefetchState.init N true lab buf bufU)).producer = .gotBoth (k % N) (k % N) ∧
    (run ld (roundsSchedule true k ++
        (List.replicate 5 Actor.producer ++ List.replicate 3 Actor.consumer))
      (PrefetchState.init N true lab buf bufU)).consumer = .poppedTwin (k % N) (k % N) := by
  obtain ⟨h1, h2, h3, h4⟩ := rounds_progress ld N true lab buf bufU hN k
  have hq := (reach_inv ld N true lab buf bufU (roundsSchedule true k)).1
  have hf := (reach_flags ld N true lab buf bufU (roundsSchedule true k)).1
  have := round_pairing ld N _ hq h1 h2 (h3.trans h4.symm) hN hf
  rw [h4] at this
  simp only [run_append]
  exact this

/-! ## Claims about the producer/consumer protocol -/

/-- C1 (conservation): from the constructed state, after any interleaving of producer and
consumer statements, each pool (dense primary; dense twin when `untransformed_top_`; sparse)
has free-count + full-count + held-by-producer + held-by-consumer = `N`, no buffer is in two
of the four places, and the buffers in them are exactly the pool indices `0 .. N-1`. -/
theorem conservation {δ σ : Type} (N : Nat) (ut lab : Bool) (buf bufU : Nat → Batch δ)
    (ld : Loader δ) (sched : List Actor)
    (labS : Bool) (bufS : Nat → SparseBatch σ δ) (ldS : Nat → SparseBatch σ δ → SparseBatch σ δ)
    (sparse_top : Bool) (schedS : List Actor) :
    let s := run ld sched (PrefetchState.init N ut lab buf bufU)
    let t := sparseRun ldS sparse_top schedS (SparsePrefetchState.init N labS bufS)
    (s.layer.prefetch_free_.length + s.layer.prefetch_full_.length
        + s.producer.held.length + s.consumer.held.length = N ∧
      (s.layer.prefetch_free_ ++ s.layer.prefetch_full_
        ++ s.producer.held ++ s.consumer.held).Nodup ∧
      ∀ b, b ∈ s.layer.prefetch_free_ ++ s.layer.prefetch_full_
        ++ s.producer.held ++ s.consumer.held ↔ b < N) ∧
    (ut = true →
      s.layer.prefetch_free_untransformed_.length + s.layer.prefetch_full_untransformed_.length
        + s.producer.heldU.length + s.consumer.heldU.length = N ∧
      (s.layer.prefetch_free_untransformed_ ++ s.layer.prefetch_full_untransformed_
        ++ s.producer.heldU ++ s.consumer.heldU).Nodup ∧
      ∀ b, b ∈ s.layer.prefetch_free_untransformed_ ++ s.layer.prefetch_full_untransformed_
        ++ s.producer.heldU ++ s.consumer.heldU ↔ b < N) ∧
    (t.layer.prefetch_free_.length + t.layer.prefetch_full_.length
        + t.producer.held.length + t.consumer.held.length = N ∧
      (t.layer.prefetch_free_ ++ t.layer.prefetch_full_
        ++ t.producer.held ++ t.consumer.held).Nodup ∧
      ∀ b, b ∈ t.layer.prefetch_free_ ++ t.layer.prefetch_full_
        ++ t.producer.held ++ t.consumer.held ↔ b < N) := by
  intro s t
  have hs := (reach_inv ld N ut lab buf bufU sched).1
  have hf := (reach_flags ld N ut lab buf bufU sched).1
  have ht := sparseReach_SInv ldS sparse_top N labS bufS schedS
  refine ⟨?_, ?_, ?_⟩
  · have := perm_range_facts hs.primary_perm
    simpa [Nat.add_assoc] using this
  · intro hut
    have := perm_range_facts (hs.twin_perm (hf.trans hut))
    simpa [Nat.add_assoc] using this
  · have := perm_range_facts ht.perm
    simpa [Nat.add_assoc] using this

/-- C1 (witness): pool of 3 in dual-stream mode after three producer statements and one
consumer statement; the twin pool still counts 3 buffers. -/
theorem conservation_witness :
    (true = true) ∧
    (run exampleLoader [.producer, .producer, .producer, .consumer]
        (exampleInit 3 true)).layer.prefetch_free_untransformed_.length
      + (run exampleLoader [.producer, .producer, .producer, .consumer]
        (exampleInit 3 true)).layer.prefetch_full_untransformed_.length
      + (run exampleLoader [.producer, .producer, .producer, .consumer]
        (exampleInit 3 true)).producer.heldU.length
      + (run exampleLoader [.producer, .producer, .producer, .consumer]
        (exampleInit 3 true)).consumer.heldU.length = 3 :=
  ⟨rfl, ((conservation 3 true true (fun _ => ⟨0, 0⟩) (fun _ => ⟨0, 0⟩) exampleLoader
    [.producer, .producer, .producer, .consumer] true (fun _ => (⟨0, 0⟩ : SparseBatch Nat Nat))
    exampleSparseLoad true []).2.1 rfl).1⟩

theorem QInv.delivered_le {δ : Type} {N : Nat} {s : PrefetchState δ} (hq : QInv N s) :
    s.delivered.length ≤ s.loads.length := by
  have h6 := hq.2.2.2.2.2.1
  have h1 := hq.1
  have : s.producer.nPush ≤ s.producer.nLoad := by
    cases s.producer <;> simp [ProducerPc.nPush, ProducerPc.nLoad]
  omega

theorem fifo_of_inv {δ : Type} {N : Nat} {s : PrefetchState δ}
    (hq : QInv N s) (hc : CInv N s) (ht : TInv s) (k : Nat) (hk : k < s.delivered.length) :
    ∃ (b : Batch δ) (obu : Option (Batch δ)) (top : Top δ),
      s.loads[k]? = some (b, obu) ∧ s.delivered[k]? = some top ∧
      top.data = some b.data_ ∧
      top.label = (if s.layer.output_labels_ then some b.label_ else none) ∧
      (if s.layer.untransformed_top_ then ∃ u, obu = some u ∧ top.untransformed = some u.data_
       else obu = none ∧ top.untransformed = none) := by
  have hKL := hq.delivered_le
  have hd := hc.2.2.2.2.2.2
  have hkL : k < s.loads.length := by omega
  rcases hl : s.loads[k] with ⟨b, obu⟩
  have hl' : s.loads[k]? = some (b, obu) := by
    rw [List.getElem?_eq_getElem hkL, hl]
  refine ⟨b, obu, Top.ofLoad s.layer.output_labels_ (b, obu), hl', ?_, rfl, rfl, ?_⟩
  · rw [hd, List.getElem?_map, List.getElem?_take_of_lt hk, hl']
    rfl
  · have hmem : (b, obu) ∈ s.loads := by
      rw [← hl]; exact List.getElem_mem _
    have h2 := ht _ hmem
    cases hut : s.layer.untransformed_top_ with
    | true =>
      rw [hut] at h2
      cases obu with
      | none => simp at h2
      | some u => exact ⟨u, rfl, rfl⟩
    | false =>
      rw [hut] at h2
      cases obu with
      | none => exact ⟨rfl, rfl⟩
      | some u => simp at h2

/-- C2 (FIFO order): after any interleaving, the `k`-th returned `Forward_cpu` call delivered
the content written by the `k`-th loader call: its data in `top[0]`, its label in `top[1]`
when labels are output, and, when `untransformed_top_`, the data of the twin written by the
same loader call in `top[2]`.  No call returns before its load happened, and with a
non-empty pool the `k`-th call does return: after `k` rounds of one producer iteration and
one `Forward_cpu` call, exactly `k` calls have returned. -/
theorem fifo_order {δ : Type} (N : Nat) (ut lab : Bool) (buf bufU : Nat → Batch δ)
    (ld : Loader δ) (sched : List Actor) :
    let s := run ld sched (PrefetchState.init N ut lab buf bufU)
    s.delivered.length ≤ s.loads.length ∧
    (∀ k, k < s.delivered.length →
      ∃ (b : Batch δ) (obu : Option (Batch δ)) (top : Top δ),
        s.loads[k]? = some (b, obu) ∧ s.delivered[k]? = some top ∧
        top.data = some b.data_ ∧
        top.label = (if lab then some b.label_ else none) ∧
        (if ut then ∃ u, obu = some u ∧ top.untransformed = some u.data_
         else obu = none ∧ top.untransformed = none)) ∧
    (0 < N → ∀ k,
      (run ld (roundsSchedule ut k) (PrefetchState.init N ut lab buf bufU)).delivered.length = k) := by
  obtain ⟨hq, hc⟩ := reach_inv ld N ut lab buf bufU sched
  obtain ⟨hut, hlab⟩ := reach_flags ld N ut lab buf bufU sched
  have ht := reach_TInv ld N ut lab buf bufU sched
  refine ⟨hq.delivered_le, ?_, ?_⟩
  · intro k hk
    have := fifo_of_inv hq hc ht k hk
    rw [hut, hlab] at this
    exact this
  · intro hN k
    exact (rounds_progress ld N ut lab buf bufU hN k).2.2.2

/-- C2 (witness): pool of 3 in dual-stream mode, two rounds; the second returned call
delivered the second load. -/
theorem fifo_order_witness :
    1 < (run exampleLoader (roundsSchedule true 2) (exampleInit 3 true)).delivered.length ∧
    ∃ (b : Batch Nat) (obu : Option (Batch Nat)) (top : Top Nat),
      (run exampleLoader (roundsSchedule true 2) (exampleInit 3 true)).loads[1]? = some (b, obu) ∧
      (run exampleLoader (roundsSchedule true 2) (exampleInit 3 true)).delivered[1]? = some top ∧
      top.data = some b.data_ ∧
      top.label = (if true then some b.label_ else none) ∧
      (if true then ∃ u, obu = some u ∧ top.untransformed = some u.data_
       else obu = none ∧ top.untransformed = none) :=
  ⟨by decide,
    (fifo_order 3 true true (fun _ => ⟨0, 0⟩) (fun _ => ⟨0, 0⟩) exampleLoader
      (roundsSchedule true 2)).2.1 1 (by decide)⟩

/-- C4 (twin pairing): in dual-stream mode, after any interleaving, the primary and the twin
buffer the producer holds in one iteration have the same pool index, so have the two buffers
one `Forward_cpu` call holds, and every returned call delivered in `top[0]` and `top[2]` the
primary and the twin written by one and the same loader call.  These states do occur: with a
non-empty pool, after `k` rounds exactly `k` calls have returned, the next producer
iteration pops primary and twin buffer `k % N`, and the next `Forward_cpu` call pops primary
and twin buffer `k % N`. -/
theorem twin_pairing {δ : Type} (N : Nat) (lab : Bool) (buf bufU : Nat → Batch δ)
    (ld : Loader δ) (sched : List Actor) :
    let s := run ld sched (PrefetchState.init N true lab buf bufU)
    (∀ b bu, s.producer = .gotBoth b bu ∨ s.producer = .loaded b (some bu) → b = bu ∧ b < N) ∧
    (∀ b bu, s.consumer = .poppedTwin b bu ∨ s.consumer = .copiedTwin b (some bu)
        ∨ s.consumer = .copiedLabel b (some bu) → b = bu ∧ b < N) ∧
    (∀ k, k < s.delivered.length →
      ∃ (b u : Batch δ) (top : Top δ),
        s.loads[k]? = some (b, some u) ∧ s.delivered[k]? = some top ∧
        top.data = some b.data_ ∧ top.untransformed = some u.data_) ∧
    (0 < N → ∀ k,
      (run ld (roundsSchedule true k)
        (PrefetchState.init N true lab buf bufU)).delivered.length = k ∧
      (run ld (roundsSchedule true k ++ [Actor.producer, Actor.producer])
        (PrefetchState.init N true lab buf bufU)).producer = .gotBoth (k % N) (k % N) ∧
      (run ld (roundsSchedule true k ++
          (List.replicate 5 Actor.producer ++ List.replicate 3 Actor.consumer))
        (PrefetchState.init N true lab buf bufU)).consumer
        = .poppedTwin (k % N) (k % N)) := by
  intro s
  obtain ⟨hq, -⟩ := reach_inv ld N true lab buf bufU sched
  obtain ⟨hut, -⟩ := reach_flags ld N true lab buf bufU sched
  have hperm := perm_range_facts hq.primary_perm
  have hp := hq.2.1
  have hc := hq.2.2.1
  rw [hut] at hp hc
  refine ⟨?_, ?_, ?_, ?_⟩
  · intro b bu h
    have hb : b ∈ s.producer.held := by
      rcases h with h | h <;> simp [h, ProducerPc.held]
    have hN : b < N := (hperm.2.2 b).mp (by simp [hb])
    rcases h with h | h <;> rw [h] at hp <;> simp [ProducerPc.localsOk] at hp
    · exact ⟨by omega, hN⟩
    · exact ⟨by omega, hN⟩
  · intro b bu h
    have hb : b ∈ s.consumer.held := by
      rcases h with h | h | h <;> simp [h, ConsumerPc.held]
    have hN : b < N := (hperm.2.2 b).mp (by simp [hb])
    rcases h with h | h | h <;> rw [h] at hc <;> simp [ConsumerPc.localsOk] at hc
    · exact ⟨by omega, hN⟩
    · exact ⟨by omega, hN⟩
    · exact ⟨by omega, hN⟩
  · intro k hk
    obtain ⟨b, obu, top, h1, h2, h3, -, h5⟩ :=
      fifo_of_inv hq (reach_inv ld N true lab buf bufU sched).2
        (reach_TInv ld N true lab buf bufU sched) k hk
    rw [hut] at h5
    simp only [if_true] at h5
    obtain ⟨u, hu, h6⟩ := h5
    exact ⟨b, u, top, hu ▸ h1, h2, h3, h6⟩
  · intro hN k
    exact ⟨(rounds_progress ld N true lab buf bufU hN k).2.2.2,
      rounds_pairing ld N lab buf bufU hN k⟩

/-- C4 (witness): pool of 3 in dual-stream mode.  After one round, five producer statements
and three consumer statements, the second `Forward_cpu` call holds primary buffer 1 and twin
buffer 1; after two rounds the second returned call delivered primary and twin of the second
load. -/
theorem twin_pairing_witness :
    (((run exampleLoader (roundsSchedule true 1 ++
          (List.replicate 5 Actor.producer ++ List.replicate 3 Actor.consumer))
        (exampleInit 3 true)).consumer = .poppedTwin 1 1 ∨
      (run exampleLoader (roundsSchedule true 1 ++
          (List.replicate 5 Actor.producer ++ List.replicate 3 Actor.consumer))
        (exampleInit 3 true)).consumer = .copiedTwin 1 (some 1) ∨
      (run exampleLoader (roundsSchedule true 1 ++
          (List.replicate 5 Actor.producer ++ List.replicate 3 Actor.consumer))
        (exampleInit 3 true)).consumer = .copiedLabel 1 (some 1)) ∧
      (1 = 1 ∧ 1 < 3)) ∧
    (1 < (run exampleLoader (roundsSchedule true 2) (exampleInit 3 true)).delivered.length ∧
      ∃ (b u : Batch Nat) (top : Top Nat),
        (run exampleLoader (roundsSchedule true 2) (exampleInit 3 true)).loads[1]?
          = some (b, some u) ∧
        (run exampleLoader (roundsSchedule true 2) (exampleInit 3 true)).delivered[1]?
          = some top ∧
        top.data = some b.data_ ∧ top.untransformed = some u.data_) ∧
    (0 < 3 ∧
      (run exampleLoader (roundsSchedule true 2) (exampleInit 3 true)).delivered.length = 2) :=
  ⟨⟨Or.inl (by decide),
      (twin_pairing 3 true (fun _ => ⟨0, 0⟩) (fun _ => ⟨0, 0⟩) exampleLoader
        (roundsSchedule true 1 ++
          (List.replicate 5 Actor.producer ++ List.replicate 3 Actor.consumer))).2.1 1 1
        (Or.inl (by decide))⟩,
    ⟨by decide,
      (twin_pairing 3 true (fun _ => ⟨0, 0⟩) (fun _ => ⟨0, 0⟩) exampleLoader
        (roundsSchedule true 2)).2.2.1 1 (by decide)⟩,
    ⟨by decide,
      ((twin_pairing 3 true (fun _ => ⟨0, 0⟩) (fun _ => ⟨0, 0⟩) exampleLoader
        []).2.2.2 (by decide) 2).1⟩⟩

/-- C7 (backpressure, amended bound): after any interleaving, the number of pushes on
`prefetch_full_` minus the number of pops from it is the length of the full queue and is at
most `N`; the consumer never pops more than was pushed. -/
theorem backpressure_bound {δ : Type} (N : Nat) (ut lab : Bool) (buf bufU : Nat → Batch δ)
    (ld : Loader δ) (sched : List Actor) :
    let s := run ld sched (PrefetchState.init N ut lab buf bufU)
    s.full_pops ≤ s.full_pushes ∧
    s.full_pushes - s.full_pops = s.layer.prefetch_full_.length ∧
    s.full_pushes - s.full_pops ≤ N := by
  obtain ⟨-, -, -, -, h5, h6, h7, -, -, -, -, h12, h13⟩ := (reach_inv ld N ut lab buf bufU sched).1
  have := (run ld sched (PrefetchState.init N ut lab buf bufU)).producer.producer_nPush_le_nPop
  have := (run ld sched (PrefetchState.init N ut lab buf bufU)).consumer.consumer_nPush_le_nPop
  simp only []
  rw [h5, seg_length]
  omega

/-- C7 (counterexample to the bound `N - 1`): with a pool of 3 buffers, after nine producer
statements (three iterations) and no `Forward_cpu` call, 3 batches were pushed and none
popped. -/
theorem backpressure_bound_counterexample :
    ¬ ((run exampleLoader (List.replicate 9 Actor.producer) (exampleInit 3 false)).full_pushes
        - (run exampleLoader (List.replicate 9 Actor.producer) (exampleInit 3 false)).full_pops
        ≤ 3 - 1) := by
  decide

theorem interrupted_eq {δ : Type} {s s' : PrefetchState δ}
    (h : InternalThreadEntry_interrupted s = some s') :
    s' = { s with producer := .exited } ∧
    (s.producer = .loopTop ∨ (∃ b, s.producer = .gotBatch b) ∨ ∃ b bu, s.producer = .gotBoth b bu) := by
  unfold InternalThreadEntry_interrupted at h
  split at h
  · split at h
    · exact ⟨by simpa using h.symm, Or.inl (by assumption)⟩
    · cases h
  · split at h
    · split at h
      · exact ⟨by simpa using h.symm, Or.inr (Or.inl ⟨_, by assumption⟩)⟩
      · cases h
    · exact ⟨by simpa using h.symm, Or.inr (Or.inl ⟨_, by assumption⟩)⟩
  · exact ⟨by simpa using h.symm, Or.inr (Or.inr ⟨_, _, by assumption⟩)⟩
  · cases h

theorem sparseInterrupted_eq {σ δ : Type} {t t' : SparsePrefetchState σ δ}
    (h : sparseInternalThreadEntry_interrupted t = some t') :
    t' = { t with producer := .exited } ∧
    (t.producer = .loopTop ∨ ∃ b, t.producer = .gotBatch b) := by
  unfold sparseInternalThreadEntry_interrupted at h
  split at h
  · split at h
    · exact ⟨by simpa using h.symm, Or.inl (by assumption)⟩
    · cases h
  · exact ⟨by simpa using h.symm, Or.inr ⟨_, by assumption⟩⟩
  · cases h

theorem perm_move_last {A B C D : List Nat} {R : List Nat}
    (h : (A ++ B ++ C ++ D).Perm R) : (A ++ B ++ D ++ C).Perm R := by
  refine List.Perm.trans ?_ h
  rw [List.append_assoc (A ++ B) D C, List.append_assoc (A ++ B) C D]
  exact List.Perm.append_left _ List.perm_append_comm

theorem shutdown_of_inv {δ : Type} {N : Nat} {s s' : PrefetchState δ} (hq : QInv N s)
    (hs : InternalThreadEntry_interrupted s = some s') :
    s'.producer = .exited ∧ s'.layer = s.layer ∧ s'.consumer = s.consumer ∧
    (s'.layer.prefetch_free_ ++ s'.layer.prefetch_full_ ++ s'.consumer.held
      ++ s.producer.held).Perm (List.range N) ∧
    (s.layer.untransformed_top_ = true →
      (s'.layer.prefetch_free_untransformed_ ++ s'.layer.prefetch_full_untransformed_
        ++ s'.consumer.heldU ++ s.producer.heldU).Perm (List.range N)) ∧
    (∀ b, b ∈ s.producer.held →
      b ∉ s'.layer.prefetch_free_ ++ s'.layer.prefetch_full_ ++ s'.consumer.held) ∧
    (∀ b, b ∈ s.producer.heldU → b ∉ s'.layer.prefetch_free_untransformed_
      ++ s'.layer.prefetch_full_untransformed_ ++ s'.consumer.heldU) ∧
    ((s.producer = .loopTop ∧ s.producer.held = [] ∧ s.producer.heldU = []) ∨
      (∃ b, s.producer = .gotBatch b ∧ s.producer.held = [b] ∧ s.producer.heldU = []) ∨
      (∃ b bu, s.producer = .gotBoth b bu ∧ s.producer.held = [b]
        ∧ s.producer.heldU = [bu])) := by
  obtain ⟨e1, c1⟩ := interrupted_eq hs
  have P1 := perm_move_last hq.primary_perm
  subst e1
  refine ⟨rfl, rfl, rfl, P1, ?_, ?_, ?_, ?_⟩
  · intro hut
    exact perm_move_last (hq.twin_perm hut)
  · intro b hb hb2
    have hnd := (perm_range_facts P1).2.1
    exact (List.disjoint_of_nodup_append hnd) hb2 hb
  · intro b hb hb2
    cases hut : s.layer.untransformed_top_ with
    | true =>
      have hnd := (perm_range_facts (perm_move_last (hq.twin_perm hut))).2.1
      exact (List.disjoint_of_nodup_append hnd) hb2 hb
    | false =>
      have hp := hq.2.1
      rw [hut] at hp
      rcases c1 with c | ⟨x, c⟩ | ⟨x, y, c⟩
      · rw [c] at hb; simp [ProducerPc.heldU] at hb
      · rw [c] at hb; simp [ProducerPc.heldU] at hb
      · rw [c] at hp; simp [ProducerPc.localsOk] at hp
  · rcases c1 with c | ⟨x, c⟩ | ⟨x, y, c⟩
    · exact Or.inl ⟨c, by rw [c]; simp [ProducerPc.held, ProducerPc.heldU]⟩
    · exact Or.inr (Or.inl ⟨x, c, by rw [c]; simp [ProducerPc.held, ProducerPc.heldU]⟩)
    · exact Or.inr (Or.inr ⟨x, y, c, by rw [c]; simp [ProducerPc.held, ProducerPc.heldU]⟩)

theorem sparse_shutdown_of_inv {σ δ : Type} {N : Nat} {t t' : SparsePrefetchState σ δ}
    (hS : SInv N t) (ht : sparseInternalThreadEntry_interrupted t = some t') :
    t'.producer = .exited ∧ t'.layer = t.layer ∧ t'.consumer = t.consumer ∧
    (t'.layer.prefetch_free_ ++ t'.layer.prefetch_full_ ++ t'.consumer.held
      ++ t.producer.held).Perm (List.range N) ∧
    (∀ b, b ∈ t.producer.held →
      b ∉ t'.layer.prefetch_free_ ++ t'.layer.prefetch_full_ ++ t'.consumer.held) ∧
    ((t.producer = .loopTop ∧ t.producer.held = []) ∨
      (∃ b, t.producer = .gotBatch b ∧ t.producer.held = [b])) := by
  obtain ⟨e2, c2⟩ := sparseInterrupted_eq ht
  have P3 := perm_move_last hS.perm
  subst e2
  refine ⟨rfl, rfl, rfl, P3, ?_, ?_⟩
  · intro b hb hb2
    have hnd := (perm_range_facts P3).2.1
    exact (List.disjoint_of_nodup_append hnd) hb2 hb
  · rcases c2 with c | ⟨x, c⟩
    · exact Or.inl ⟨c, by rw [c]; simp [SparseProducerPc.held]⟩
    · exact Or.inr ⟨x, c, by rw [c]; simp [SparseProducerPc.held]⟩

/-- C6 (shutdown, amended): when the producer leaves its loop through the
`thread_interrupted` handler from a reachable state, the queues and the consumer are
untouched, and the buffers of each pool are exactly those in the free queue, in the full
queue, held by the consumer, and the ones the producer had popped in the interrupted
iteration.  The latter are none when it was waiting in the primary free-queue pop; they
are the primary buffer when it was waiting in the twin free-queue pop or inside the
single-stream or sparse loader call, and the primary and the twin buffer inside the
dual-stream loader call; such a buffer is in no queue and not with the consumer. -/
theorem shutdown_buffers {δ σ : Type} (N : Nat) (ut lab : Bool) (buf bufU : Nat → Batch δ)
    (ld : Loader δ) (sched : List Actor)
    (labS : Bool) (bufS : Nat → SparseBatch σ δ) (ldS : Nat → SparseBatch σ δ → SparseBatch σ δ)
    (sparse_top : Bool) (schedS : List Actor)
    (s' : PrefetchState δ) (t' : SparsePrefetchState σ δ)
    (hs : InternalThreadEntry_interrupted (run ld sched (PrefetchState.init N ut lab buf bufU))
      = some s')
    (ht : sparseInternalThreadEntry_interrupted
      (sparseRun ldS sparse_top schedS (SparsePrefetchState.init N labS bufS)) = some t') :
    let s := run ld sched (PrefetchState.init N ut lab buf bufU)
    let t := sparseRun ldS sparse_top schedS (SparsePrefetchState.init N labS bufS)
    (s'.producer = .exited ∧ s'.layer = s.layer ∧ s'.consumer = s.consumer ∧
      (s'.layer.prefetch_free_ ++ s'.layer.prefetch_full_ ++ s'.consumer.held
        ++ s.producer.held).Perm (List.range N) ∧
      (ut = true →
        (s'.layer.prefetch_free_untransformed_ ++ s'.layer.prefetch_full_untransformed_
          ++ s'.consumer.heldU ++ s.producer.heldU).Perm (List.range N)) ∧
      (∀ b, b ∈ s.producer.held →
        b ∉ s'.layer.prefetch_free_ ++ s'.layer.prefetch_full_ ++ s'.consumer.held) ∧
      (∀ b, b ∈ s.producer.heldU → b ∉ s'.layer.prefetch_free_untransformed_
        ++ s'.layer.prefetch_full_untransformed_ ++ s'.consumer.heldU) ∧
      ((s.producer = .loopTop ∧ s.producer.held = [] ∧ s.producer.heldU = []) ∨
        (∃ b, s.producer = .gotBatch b ∧ s.producer.held = [b] ∧ s.producer.heldU = []) ∨
        (∃ b bu, s.producer = .gotBoth b bu ∧ s.producer.held = [b]
          ∧ s.producer.heldU = [bu]))) ∧
    (t'.producer = .exited ∧ t'.layer = t.layer ∧ t'.consumer = t.consumer ∧
      (t'.layer.prefetch_free_ ++ t'.layer.prefetch_full_ ++ t'.consumer.held
        ++ t.producer.held).Perm (List.range N) ∧
      (∀ b, b ∈ t.producer.held →
        b ∉ t'.layer.prefetch_free_ ++ t'.layer.prefetch_full_ ++ t'.consumer.held) ∧
      ((t.producer = .loopTop ∧ t.producer.held = []) ∨
        (∃ b, t.producer = .gotBatch b ∧ t.producer.held = [b]))) := by
  have hq := (reach_inv ld N ut lab buf bufU sched).1
  have hf := (reach_flags ld N ut lab buf bufU sched).1
  have hS := sparseReach_SInv ldS sparse_top N labS bufS schedS
  have h1 := shutdown_of_inv hq hs
  rw [hf] at h1
  exact ⟨h1, sparse_shutdown_of_inv hS ht⟩

/-- C6 (counterexample): with a pool of 3 buffers in single-stream mode, the producer pops
buffer 0 and is interrupted inside `load_batch`; after it has exited, buffer 0 is neither in
a queue nor held by the consumer.  In dual-stream mode with a pool of 1, the consumer has
pushed the primary buffer back but not yet the twin, the producer has popped the primary
buffer again and is interrupted in the twin free-queue pop: the primary buffer is then in no
queue and not with the consumer either. -/
theorem shutdown_buffers_counterexample :
    (InternalThreadEntry_interrupted (run exampleLoader [.producer] (exampleInit 3 false))).map
        (fun s' => (s'.producer, s'.layer.prefetch_free_, s'.layer.prefetch_full_,
          s'.consumer.held))
      = some (.exited, [1, 2], [], []) ∧
    (InternalThreadEntry_interrupted (run exampleLoader
          (List.replicate 5 .producer ++ List.replicate 6 .consumer ++ [.producer])
          (exampleInit 1 true))).map
        (fun s' => (s'.producer, s'.layer.prefetch_free_, s'.layer.prefetch_full_,
          s'.consumer.held))
      = some (.exited, [], [], []) := by
  decide

/-- C6 (witness): the theorem applied to the two interrupted runs of a pool of 3, dense
single-stream and sparse, each interrupted inside the loader call. -/
theorem shutdown_buffers_witness :
    (InternalThreadEntry_interrupted (run exampleLoader [.producer] (exampleInit 3 false))
        = some { run exampleLoader [.producer] (exampleInit 3 false) with producer := .exited } ∧
      sparseInternalThreadEntry_interrupted
          (sparseRun exampleSparseLoad true [.producer] (exampleSparseInit 3))
        = some { sparseRun exampleSparseLoad true [.producer] (exampleSparseInit 3) with
                 producer := .exited }) ∧
    ([1, 2] ++ [] ++ [] ++ [0]).Perm (List.range 3) := by
  refine ⟨⟨rfl, rfl⟩, ?_⟩
  exact (shutdown_buffers 3 false true (fun _ => ⟨0, 0⟩) (fun _ => ⟨0, 0⟩) exampleLoader
    [.producer] true (fun _ => ⟨0, 0⟩) exampleSparseLoad true [.producer] _ _ rfl rfl).1.2.2.2.1

/-! ## Claims about the sequential `Forward_cpu` and `LayerSetUp` -/

theorem Blob.ReshapeLike_length (t src : Blob) : src.count ≤ (t.ReshapeLike src).data.length := by
  simp [Blob.ReshapeLike]
  omega

theorem caffe_copy_ok {α : Type} {n : Nat} {X Y : List α} (hX : n ≤ X.length)
    (hY : n ≤ Y.length) : caffe_copy n X Y = some (X.take n ++ Y.drop n) := by
  simp [caffe_copy, hX, hY]

theorem copyInto_ok {top : List Blob} {i : Nat} {t src : Blob} (ht : top[i]? = some t)
    (hw : src.wf) : copyInto top i src = .ok (top.set i (t.copied src)) := by
  unfold copyInto
  rw [ht]
  simp only
  rw [caffe_copy_ok hw (Blob.ReshapeLike_length t src)]
  rfl

theorem copyInto_none {top : List Blob} {i : Nat} {src : Blob} (ht : top[i]? = none) :
    copyInto top i src = .error (.indexOutOfRange i, top) := by
  unfold copyInto
  rw [ht]

theorem Blob.copied_spec (t src : Blob) (hw : src.wf) :
    (t.copied src).shape = src.shape ∧
    (t.copied src).data.take src.count = src.data.take src.count ∧
    (t.copied src).wf := by
  unfold Blob.wf at hw
  refine ⟨rfl, ?_, ?_⟩
  · simp [Blob.copied, List.take_append_eq_append_take, hw, Nat.min_eq_left hw]
  · have := Blob.ReshapeLike_length t src
    simp [Blob.wf, Blob.copied, Blob.count] at *
    omega

theorem Forward_cpu_single {l : BasePrefetchingDataLayer Blob} {top : List Blob} {b : Nat}
    {rest : List Nat} {t : Blob} (hut : l.untransformed_top_ = false)
    (hfull : l.prefetch_full_ = b :: rest) (h0 : top[0]? = some t)
    (hw : (l.prefetch_ b).data_.wf) :
    l.Forward_cpu top =
      match (if l.output_labels_ then
          copyInto (top.set 0 (t.copied (l.prefetch_ b).data_)) 1 (l.prefetch_ b).label_
        else .ok (top.set 0 (t.copied (l.prefetch_ b).data_))) with
      | .error e => .error e
      | .ok top3 =>
        .ok ({ l with prefetch_full_ := rest
                      prefetch_free_ := l.prefetch_free_ ++ [b] }, top3) := by
  obtain ⟨ut, lab, pf, pfu, free, full, freeU, fullU⟩ := l
  simp only at hut hfull hw
  subst hut hfull
  cases lab with
  | false =>
    simp [BasePrefetchingDataLayer.Forward_cpu, BlockingQueue.pop, copyInto_ok h0 hw,
      BlockingQueue.push]
  | true =>
    simp only [BasePrefetchingDataLayer.Forward_cpu, BlockingQueue.pop, copyInto_ok h0 hw,
      BlockingQueue.push, Bool.false_eq_true, if_false, if_true]

theorem Forward_cpu_dual {l : BasePrefetchingDataLayer Blob} {top : List Blob} {b bu : Nat}
    {rest restU : List Nat} {t : Blob} (hut : l.untransformed_top_ = true)
    (hfull : l.prefetch_full_ = b :: rest) (hfullU : l.prefetch_full_untransformed_ = bu :: restU)
    (h0 : top[0]? = some t) (hw : (l.prefetch_ b).data_.wf) :
    l.Forward_cpu top =
      match copyInto (top.set 0 (t.copied (l.prefetch_ b).data_)) 2
          (l.prefetch_untransformed_ bu).data_ with
      | .error e => .error e
      | .ok top2 =>
        match (if l.output_labels_ then copyInto top2 1 (l.prefetch_ b).label_
          else .ok top2) with
        | .error e => .error e
        | .ok top3 =>
          .ok ({ l with prefetch_full_ := rest
                        prefetch_full_untransformed_ := restU
                        prefetch_free_ := l.prefetch_free_ ++ [b]
                        prefetch_free_untransformed_ := l.prefetch_free_untransformed_ ++ [bu] },
               top3) := by
  obtain ⟨ut, lab, pf, pfu, free, full, freeU, fullU⟩ := l
  simp only at hut hfull hfullU hw
  subst hut hfull hfullU
  simp only [BasePrefetchingDataLayer.Forward_cpu, BlockingQueue.pop, copyInto_ok h0 hw,
    BlockingQueue.push, if_true]
  rcases copyInto (top.set 0 (t.copied (pf b).data_)) 2 (pfu bu).data_ with e | t2
  · rfl
  · cases lab with
    | false => rfl
    | true => simp only [if_true]


/-- C10 (sink indexing): `LayerSetUp` sets `output_labels_` to false exactly when `top` has
one element.  For a non-empty `top`, well-formed buffers at the heads of the full queues and
`output_labels_` as `LayerSetUp` set it from this `top`: in single-stream mode `Forward_cpu`
returns, so every index it touches exists; in dual-stream mode it returns if and only if
`top` has at least 3 elements, with 1 or 2 elements it stops at `top[2]`, past the end,
whether or not labels are output, and with 3 or more it leaves the twin data in `top[2]`. -/
theorem sink_indexing (l : BasePrefetchingDataLayer Blob) (top : List Blob) (b : Nat)
    (rest : List Nat) (htop : top ≠ [])
    (hfull : l.prefetch_full_ = b :: rest)
    (hlab : l.output_labels_ = (BaseDataLayer.LayerSetUp top.length).1)
    (hw : (l.prefetch_ b).data_.wf ∧ (l.prefetch_ b).label_.wf) :
    ((BaseDataLayer.LayerSetUp top.length).1 = false ↔ top.length = 1) ∧
    (l.untransformed_top_ = false → ∃ r, l.Forward_cpu top = .ok r) ∧
    (∀ bu restU, l.untransformed_top_ = true →
      l.prefetch_full_untransformed_ = bu :: restU → (l.prefetch_untransformed_ bu).data_.wf →
      ((∃ r, l.Forward_cpu top = .ok r) ↔ 3 ≤ top.length) ∧
      (top.length < 3 → ∃ t, l.Forward_cpu top = .error (.indexOutOfRange 2, t)) ∧
      (3 ≤ top.length → ∃ l' top' t, l.Forward_cpu top = .ok (l', top') ∧
        top'[2]? = some t ∧ t.shape = (l.prefetch_untransformed_ bu).data_.shape ∧
        t.data.take (l.prefetch_untransformed_ bu).data_.count
          = (l.prefetch_untransformed_ bu).data_.data.take
              (l.prefetch_untransformed_ bu).data_.count)) := by
  refine ⟨by simp [BaseDataLayer.LayerSetUp], ?_, ?_⟩
  · intro hut
    match top, htop with
    | [t0], _ =>
      simp [BaseDataLayer.LayerSetUp] at hlab
      rw [Forward_cpu_single (t := t0) hut hfull rfl hw.1, hlab]
      simp
    | t0 :: t1 :: tl, _ =>
      simp [BaseDataLayer.LayerSetUp] at hlab
      rw [Forward_cpu_single (t := t0) hut hfull rfl hw.1, hlab]
      simp only [if_true]
      rw [copyInto_ok (t := t1) (by simp) hw.2]
      simp
  · intro bu restU hut hfullU hwU
    match top, htop with
    | [t0], _ =>
      rw [Forward_cpu_dual (t := t0) hut hfull hfullU rfl hw.1]
      rw [copyInto_none (by simp)]
      simp
    | [t0, t1], _ =>
      rw [Forward_cpu_dual (t := t0) hut hfull hfullU rfl hw.1]
      rw [copyInto_none (by simp)]
      simp
    | t0 :: t1 :: t2 :: tl, _ =>
      simp [BaseDataLayer.LayerSetUp] at hlab
      have spec := Blob.copied_spec t2 _ hwU
      rw [Forward_cpu_dual (t := t0) hut hfull hfullU rfl hw.1]
      rw [copyInto_ok (t := t2) (by simp) hwU, hlab]
      simp only [if_true]
      rw [copyInto_ok (t := t1) (by simp) hw.2]
      refine ⟨by simp, by simp, fun _ => ⟨_, _, _, rfl, ?_, spec.1, spec.2.1⟩⟩
      simp

/-- C10 (witness): the example layer in dual-stream mode with two output blobs stops at
`top[2]`. -/
theorem sink_indexing_witness :
    (exampleTop ≠ [] ∧ exampleDualLayer.prefetch_full_ = [0] ∧
      exampleDualLayer.untransformed_top_ = true ∧
      exampleDualLayer.prefetch_full_untransformed_ = [0] ∧ exampleTop.length < 3) ∧
    ∃ t, exampleDualLayer.Forward_cpu exampleTop = .error (.indexOutOfRange 2, t) :=
  ⟨⟨by decide, rfl, rfl, rfl, by decide⟩,
    ((sink_indexing exampleDualLayer exampleTop 0 [] (by decide) rfl rfl
      ⟨by decide, by decide⟩).2.2 0 [] rfl rfl (by decide)).2.1 (by decide)⟩

/-- The statement-level consumer and the sequential `Forward_cpu` agree on the layer: when
`Forward_cpu` returns from a state where the caller is idle, running the consumer statements
of one call (5 in single-stream mode, 7 in dual-stream mode) without interference leaves the
same queues and the same buffers, and the caller is idle again. -/
theorem Forward_cpu_steps (ld : Loader Blob) (s : PrefetchState Blob) (top top' : List Blob)
    (l' : BasePrefetchingDataLayer Blob) (hidle : s.consumer = .idle)
    (h : s.layer.Forward_cpu top = .ok (l', top')) :
    (run ld (List.replicate (if s.layer.untransformed_top_ then 7 else 5) Actor.consumer) s).layer
      = l' ∧
    (run ld (List.replicate (if s.layer.untransformed_top_ then 7 else 5) Actor.consumer)
      s).consumer = .idle ∧
    (run ld (List.replicate (if s.layer.untransformed_top_ then 7 else 5) Actor.consumer)
      s).delivered.length = s.delivered.length + 1 := by
  obtain ⟨⟨ut, lab, pf, pfu, free, full, freeU, fullU⟩, p, c, tp, loads, del, pu, po⟩ := s
  simp only at hidle
  subst hidle
  cases full with
  | nil => simp [BasePrefetchingDataLayer.Forward_cpu, BlockingQueue.pop] at h
  | cons b rest =>
    simp only [BasePrefetchingDataLayer.Forward_cpu, BlockingQueue.pop] at h
    rcases h0 : copyInto top 0 (pf b).data_ with e | top1
    · simp [h0] at h
    · simp only [h0] at h
      cases ut with
      | false =>
        simp only [Bool.false_eq_true, if_false] at h
        cases lab with
        | false =>
          simp [BlockingQueue.push] at h
          simp [run, step, consumerStep, BlockingQueue.pop, BlockingQueue.push, ← h.1]
        | true =>
          simp only [if_true] at h
          rcases h1 : copyInto top1 1 (pf b).label_ with e | top3
          · simp [h1] at h
          · simp [h1, BlockingQueue.push] at h
            simp [run, step, consumerStep, BlockingQueue.pop, BlockingQueue.push, ← h.1]
      | true =>
        simp only [if_true] at h
        cases fullU with
        | nil => simp at h
        | cons bu restU =>
          simp only at h
          rcases h2 : copyInto top1 2 (pfu bu).data_ with e | top2
          · simp [h2] at h
          · simp only [h2] at h
            cases lab with
            | false =>
              simp [BlockingQueue.push] at h
              simp [run, step, consumerStep, BlockingQueue.pop, BlockingQueue.push, ← h.1]
            | true =>
              simp only [if_true] at h
              rcases h1 : copyInto top2 1 (pf b).label_ with e | top3
              · simp [h1] at h
              · simp [h1, BlockingQueue.push] at h
                simp [run, step, consumerStep, BlockingQueue.pop, BlockingQueue.push, ← h.1]

theorem popNth_push {α : Type} (q : List α) (b : α) :
    BlockingQueue.popNth (q ++ [b]) q.length = some (b, []) := by
  induction q with
  | nil => rfl
  | cons x r ih => simpa [BlockingQueue.popNth, BlockingQueue.pop] using ih

/-- C3 (round trip): in single-stream mode, with a well-formed buffer `b` at the head of
the full queue, one `Forward_cpu` call returns, leaves `top[0]` with the shape and the
values of the buffer's data, `top[1]` with the shape and the values of its label when
labels are output, leaves the buffer's content as it was, and puts `b` back on the free
queue, at its tail.  Following pops of the free queue do not block and return `b`: the
first one when the free queue was empty before the call, and in general the one that comes
after the buffers that were free before it. -/
theorem round_trip (l : BasePrefetchingDataLayer Blob) (top : List Blob) (b : Nat)
    (rest : List Nat) (t0 : Blob)
    (hut : l.untransformed_top_ = false)
    (hfull : l.prefetch_full_ = b :: rest)
    (hw : (l.prefetch_ b).data_.wf ∧ (l.prefetch_ b).label_.wf)
    (h0 : top[0]? = some t0)
    (h1 : l.output_labels_ = true → 1 < top.length) :
    ∃ l' top', l.Forward_cpu top = .ok (l', top') ∧
      (∃ t, top'[0]? = some t ∧ t.shape = (l.prefetch_ b).data_.shape ∧
        t.data.take (l.prefetch_ b).data_.count
          = (l.prefetch_ b).data_.data.take (l.prefetch_ b).data_.count) ∧
      (l.output_labels_ = true →
        ∃ t, top'[1]? = some t ∧ t.shape = (l.prefetch_ b).label_.shape ∧
          t.data.take (l.prefetch_ b).label_.count
            = (l.prefetch_ b).label_.data.take (l.prefetch_ b).label_.count) ∧
      l'.prefetch_ = l.prefetch_ ∧
      l'.prefetch_full_ = rest ∧
      l'.prefetch_free_ = l.prefetch_free_ ++ [b] ∧
      (∃ x r, BlockingQueue.pop l'.prefetch_free_ = some (x, r)) ∧
      (l.prefetch_free_ = [] → BlockingQueue.pop l'.prefetch_free_ = some (b, [])) ∧
      (∀ x r, l.prefetch_free_ = x :: r →
        BlockingQueue.pop l'.prefetch_free_ = some (x, r ++ [b])) ∧
      b ∈ l'.prefetch_free_ ∧
      BlockingQueue.popNth l'.prefetch_free_ l.prefetch_free_.length = some (b, []) := by
  have hpop : (∃ x r, BlockingQueue.pop (l.prefetch_free_ ++ [b]) = some (x, r)) ∧
      (l.prefetch_free_ = [] → BlockingQueue.pop (l.prefetch_free_ ++ [b]) = some (b, [])) ∧
      (∀ x r, l.prefetch_free_ = x :: r →
        BlockingQueue.pop (l.prefetch_free_ ++ [b]) = some (x, r ++ [b])) ∧
      b ∈ l.prefetch_free_ ++ [b] ∧
      BlockingQueue.popNth (l.prefetch_free_ ++ [b]) l.prefetch_free_.length = some (b, []) := by
    refine ⟨?_, ?_, ?_, by simp, popNth_push _ _⟩
    · cases l.prefetch_free_ with
      | nil => simp [BlockingQueue.pop]
      | cons x r => simp [BlockingQueue.pop]
    · intro h; rw [h]; rfl
    · intro x r h; rw [h]; rfl
  have hd := Blob.copied_spec t0 _ hw.1
  have hlen0 : 0 < top.length := by
    rcases List.getElem?_eq_some_iff.mp h0 with ⟨h, -⟩
    exact h
  rw [Forward_cpu_single hut hfull h0 hw.1]
  cases hlab : l.output_labels_ with
  | false =>
    refine ⟨_, _, rfl, ⟨_, ?_, hd.1, hd.2.1⟩, ?_, rfl, rfl, rfl, hpop⟩
    · simp [hlen0]
    · intro h; cases h
  | true =>
    have hlen1 := h1 hlab
    obtain ⟨t1, ht1⟩ : ∃ t1, (top.set 0 (t0.copied (l.prefetch_ b).data_))[1]? = some t1 :=
      ⟨_, List.getElem?_eq_getElem (by simpa using hlen1)⟩
    have hl := Blob.copied_spec t1 _ hw.2
    simp only [if_true]
    rw [copyInto_ok ht1 hw.2]
    refine ⟨_, _, rfl, ⟨_, ?_, hd.1, hd.2.1⟩, ?_, rfl, rfl, rfl, hpop⟩
    · simp [hlen0]
    · intro _
      exact ⟨_, by simp [hlen1], hl.1, hl.2.1⟩

/-- C3 (witness): the theorem applied to the example layer (buffer 0 filled with data
`[1, 2, 3]` and label `[7]`, buffers 1 and 2 free): buffer 0 is back on the free queue and
the third following pop returns it without blocking. -/
theorem round_trip_witness :
    (exampleLayer.untransformed_top_ = false ∧ exampleLayer.prefetch_full_ = [0] ∧
      exampleTop[0]? = some ⟨[], []⟩) ∧
    ∃ l' top', exampleLayer.Forward_cpu exampleTop = .ok (l', top') ∧
      l'.prefetch_free_ = [1, 2] ++ [0] ∧
      BlockingQueue.popNth l'.prefetch_free_ 2 = some (0, []) := by
  refine ⟨⟨rfl, rfl, rfl⟩, ?_⟩
  obtain ⟨l', top', h, -, -, -, -, hfree, -, -, -, -, hn⟩ :=
    round_trip exampleLayer exampleTop 0 [] ⟨[], []⟩ rfl rfl ⟨by decide, by decide⟩ rfl
      (fun _ => by decide)
  exact ⟨l', top', h, hfree, hn⟩

theorem copyIntoSink_not_fatal (top : List Sink) (i : Nat) (src : Blob) (m : String)
    (t : List Sink) : copyIntoSink top i src ≠ .error (.fatal m, t) := by
  unfold copyIntoSink
  split
  · simp
  · simp only
    split <;> simp

theorem copyIntoSink_ok {top : List Sink} {i : Nat} {t : Sink} {src : Blob}
    (ht : top[i]? = some t) (hw : src.wf) :
    copyIntoSink top i src = .ok (top.set i (t.withBase (t.base.copied src))) := by
  unfold copyIntoSink
  rw [ht]
  simp only
  rw [caffe_copy_ok hw (Blob.ReshapeLike_length t.base src)]
  rfl

theorem copySparse_ok {src t : SparseBlob} (hw : src.wf) :
    copySparse src (t.ReshapeLike src) = some (t.copied src) := by
  obtain ⟨h0, h1, h2, h3⟩ := hw
  obtain ⟨rows, tl, hs⟩ : ∃ rows tl, src.shape = rows :: tl := by
    cases hsh : src.shape with
    | nil => exact absurd hsh h0
    | cons a b => exact ⟨a, b, rfl⟩
  have e1 : src.nnz ≤ (t.ReshapeLike src).data.length := by
    simp [SparseBlob.ReshapeLike]; omega
  have e2 : src.nnz ≤ (t.ReshapeLike src).indices.length := by
    simp [SparseBlob.ReshapeLike]; omega
  have e3 : rows + 1 ≤ (t.ReshapeLike src).ptr.length := by
    simp [SparseBlob.ReshapeLike, hs]; omega
  have h3' : rows + 1 ≤ src.ptr.length := by simpa [hs] using h3
  unfold copySparse
  rw [caffe_copy_ok h1 e1]
  simp only
  rw [caffe_copy_ok h2 e2]
  simp only [hs, List.getElem?_cons_zero]
  rw [caffe_copy_ok h3' e3]
  simp [SparseBlob.copied, hs]

/-- C5 (sparse capability check): with a buffer at the head of the full queue and an
existing `top[0]`, the sparse `Forward_cpu` stops with `LOG(FATAL)` if and only if `top[0]`
is not a `SparseBlob`, and when it does, every output blob is as it was before the call. -/
theorem sparse_capability_check (l : BasePrefetchingSparseDataLayer SparseBlob Blob)
    (top : List Sink) (b : Nat) (rest : List Nat) (t : Sink)
    (hfull : l.prefetch_full_ = b :: rest) (h0 : top[0]? = some t) :
    ((∃ top', l.Forward_cpu top = .error (.fatal "fatal error", top')) ↔ ∃ d, t = .dense d) ∧
    (∀ m top', l.Forward_cpu top = .error (.fatal m, top') → top' = top) ∧
    ((∃ d, t = .dense d) → l.Forward_cpu top = .error (.fatal "fatal error", top)) := by
  have key : ∀ s, t = .sparse s → ∀ m top', l.Forward_cpu top ≠ .error (.fatal m, top') := by
    intro s hs m top'
    subst hs
    unfold BasePrefetchingSparseDataLayer.Forward_cpu
    simp only [hfull, BlockingQueue.pop, h0]
    split
    · simp
    · split
      · rename_i e he
        intro hcontra
        simp only [Except.error.injEq] at hcontra
        subst hcontra
        cases hlab : l.output_labels_ with
        | false => simp [hlab] at he
        | true =>
          simp only [hlab, if_true] at he
          exact copyIntoSink_not_fatal _ _ _ _ _ he
      · simp
  have dense : ∀ d, t = .dense d → l.Forward_cpu top = .error (.fatal "fatal error", top) := by
    intro d hd
    subst hd
    unfold BasePrefetchingSparseDataLayer.Forward_cpu
    simp only [hfull, BlockingQueue.pop, h0]
  refine ⟨⟨?_, ?_⟩, ?_, ?_⟩
  · rintro ⟨top', h⟩
    cases t with
    | dense d => exact ⟨d, rfl⟩
    | sparse s => exact absurd h (key s rfl _ _)
  · rintro ⟨d, hd⟩
    exact ⟨top, dense d hd⟩
  · intro m top' h
    cases t with
    | dense d =>
      rw [dense d rfl] at h
      simp only [Except.error.injEq, Prod.mk.injEq] at h
      exact h.2.symm
    | sparse s => exact absurd h (key s rfl _ _)
  · rintro ⟨d, hd⟩
    exact dense d hd

/-- C5 (witness): the example sparse layer in front of a dense `top[0]` stops with the fatal
error and leaves the output blobs untouched. -/
theorem sparse_capability_check_witness :
    (exampleSparseLayer.prefetch_full_ = [0] ∧ exampleDenseTop[0]? = some (.dense ⟨[], []⟩)) ∧
    exampleSparseLayer.Forward_cpu exampleDenseTop = .error (.fatal "fatal error", exampleDenseTop) :=
  ⟨⟨rfl, rfl⟩,
    (sparse_capability_check exampleSparseLayer exampleDenseTop 0 [] (.dense ⟨[], []⟩) rfl rfl).2.2
      ⟨_, rfl⟩⟩

/-- C9 (sparse copy layout): with a well-formed sparse buffer `b` of `nnz` values and `r`
rows at the head of the full queue and a `SparseBlob` as `top[0]`, the sparse `Forward_cpu`
returns; `top[0]` then has the buffer's shape and `nnz`, its first `nnz` values, its first
`nnz` column indices and its first `r + 1` row pointers are the buffer's, what lies behind
them in the reshaped storages is untouched, and `b` is appended to the free queue. -/
theorem sparse_copy_layout (l : BasePrefetchingSparseDataLayer SparseBlob Blob)
    (top : List Sink) (b : Nat) (rest : List Nat) (t : SparseBlob) (r : Nat) (dims : List Nat)
    (hfull : l.prefetch_full_ = b :: rest) (h0 : top[0]? = some (.sparse t))
    (hshape : (l.prefetch_ b).data_.shape = r :: dims)
    (hw : (l.prefetch_ b).data_.wf)
    (hl : l.output_labels_ = true → (l.prefetch_ b).label_.wf ∧ 1 < top.length) :
    ∃ l' top' t', l.Forward_cpu top = .ok (l', top') ∧ top'[0]? = some (.sparse t') ∧
      t'.shape = (l.prefetch_ b).data_.shape ∧ t'.nnz = (l.prefetch_ b).data_.nnz ∧
      t'.data.take (l.prefetch_ b).data_.nnz
        = (l.prefetch_ b).data_.data.take (l.prefetch_ b).data_.nnz ∧
      t'.indices.take (l.prefetch_ b).data_.nnz
        = (l.prefetch_ b).data_.indices.take (l.prefetch_ b).data_.nnz ∧
      t'.ptr.take (r + 1) = (l.prefetch_ b).data_.ptr.take (r + 1) ∧
      t'.data.drop (l.prefetch_ b).data_.nnz
        = (t.ReshapeLike (l.prefetch_ b).data_).data.drop (l.prefetch_ b).data_.nnz ∧
      t'.indices.drop (l.prefetch_ b).data_.nnz
        = (t.ReshapeLike (l.prefetch_ b).data_).indices.drop (l.prefetch_ b).data_.nnz ∧
      t'.ptr.drop (r + 1) = (t.ReshapeLike (l.prefetch_ b).data_).ptr.drop (r + 1) ∧
      l'.prefetch_ = l.prefetch_ ∧
      l'.prefetch_full_ = rest ∧
      l'.prefetch_free_ = l.prefetch_free_ ++ [b] := by
  have hlen0 : 0 < top.length := by
    rcases List.getElem?_eq_some_iff.mp h0 with ⟨h, -⟩
    exact h
  obtain ⟨-, w1, w2, w3⟩ := id hw
  have hr : (l.prefetch_ b).data_.shape.headD 0 = r := by rw [hshape]; rfl
  rw [hr] at w3
  have spec : (t.copied (l.prefetch_ b).data_).shape = (l.prefetch_ b).data_.shape ∧
      (t.copied (l.prefetch_ b).data_).nnz = (l.prefetch_ b).data_.nnz ∧
      (t.copied (l.prefetch_ b).data_).data.take (l.prefetch_ b).data_.nnz
        = (l.prefetch_ b).data_.data.take (l.prefetch_ b).data_.nnz ∧
      (t.copied (l.prefetch_ b).data_).indices.take (l.prefetch_ b).data_.nnz
        = (l.prefetch_ b).data_.indices.take (l.prefetch_ b).data_.nnz ∧
      (t.copied (l.prefetch_ b).data_).ptr.take (r + 1)
        = (l.prefetch_ b).data_.ptr.take (r + 1) ∧
      (t.copied (l.prefetch_ b).data_).data.drop (l.prefetch_ b).data_.nnz
        = (t.ReshapeLike (l.prefetch_ b).data_).data.drop (l.prefetch_ b).data_.nnz ∧
      (t.copied (l.prefetch_ b).data_).indices.drop (l.prefetch_ b).data_.nnz
        = (t.ReshapeLike (l.prefetch_ b).data_).indices.drop (l.prefetch_ b).data_.nnz ∧
      (t.copied (l.prefetch_ b).data_).ptr.drop (r + 1)
        = (t.ReshapeLike (l.prefetch_ b).data_).ptr.drop (r + 1) := by
    simp only [SparseBlob.copied, hr]
    refine ⟨rfl, rfl, ?_, ?_, ?_, ?_, ?_, ?_⟩
    · simp [List.take_append_eq_append_take, Nat.min_eq_left w1]
    · simp [List.take_append_eq_append_take, Nat.min_eq_left w2]
    · simp [List.take_append_eq_append_take, Nat.min_eq_left w3]
    · simp [List.drop_append_eq_append_drop, Nat.min_eq_left w1]
    · simp [List.drop_append_eq_append_drop, Nat.min_eq_left w2]
    · simp [List.drop_append_eq_append_drop, Nat.min_eq_left w3]
  unfold BasePrefetchingSparseDataLayer.Forward_cpu
  simp only [hfull, BlockingQueue.pop, h0, copySparse_ok hw, BlockingQueue.push]
  cases hlab : l.output_labels_ with
  | false =>
    simp only [Bool.false_eq_true, if_false]
    exact ⟨_, _, _, rfl, by simp [hlen0], spec.1, spec.2.1, spec.2.2.1, spec.2.2.2.1,
      spec.2.2.2.2.1, spec.2.2.2.2.2.1, spec.2.2.2.2.2.2.1, spec.2.2.2.2.2.2.2, rfl, rfl, rfl⟩
  | true =>
    obtain ⟨wl, hlen1⟩ := hl hlab
    obtain ⟨t1, ht1⟩ : ∃ t1, (top.set 0 (Sink.sparse (t.copied (l.prefetch_ b).data_)))[1]?
        = some t1 := ⟨_, List.getElem?_eq_getElem (by simpa using hlen1)⟩
    simp only [if_true]
    rw [copyIntoSink_ok ht1 wl]
    exact ⟨_, _, _, rfl, by simp [hlen0], spec.1, spec.2.1, spec.2.2.1, spec.2.2.2.1,
      spec.2.2.2.2.1, spec.2.2.2.2.2.1, spec.2.2.2.2.2.2.1, spec.2.2.2.2.2.2.2, rfl, rfl, rfl⟩

/-- C9 (witness): the theorem applied to the example sparse layer and a sparse `top[0]`. -/
theorem sparse_copy_layout_witness :
    (exampleSparseLayer.prefetch_full_ = [0] ∧
      exampleSparseTop[0]? = some (.sparse ⟨[], 0, [], [], []⟩) ∧
      (exampleSparseLayer.prefetch_ 0).data_.shape = [2, 3]) ∧
    ∃ l' top' t', exampleSparseLayer.Forward_cpu exampleSparseTop = .ok (l', top') ∧
      top'[0]? = some (.sparse t') ∧ t'.ptr.take 3 = [0, 1, 2] ∧
      l'.prefetch_free_ = [1, 2, 0] := by
  refine ⟨⟨rfl, rfl, rfl⟩, ?_⟩
  obtain ⟨l', top', t', h, h0, -, -, -, -, hp, -, -, -, -, -, hfree⟩ :=
    sparse_copy_layout exampleSparseLayer exampleSparseTop 0 [] ⟨[], 0, [], [], []⟩ 2 [3]
      rfl rfl rfl (by decide) (fun _ => ⟨by decide, by decide⟩)
  exact ⟨l', top', t', h, h0, hp, hfree⟩

theorem touchBuffers_all (N : Nat) (ut gpu lab : Bool) :
    (BasePrefetchingDataLayer.touchBuffers N ut gpu lab).all Call.isTouch = true ∧
    (BasePrefetchingSparseDataLayer.touchBuffers N gpu lab).all Call.isTouch = true := by
  constructor
  · cases ut <;> cases gpu <;> cases lab <;>
      simp [BasePrefetchingDataLayer.touchBuffers, Call.isTouch]
  · cases gpu <;> cases lab <;>
      simp [BasePrefetchingSparseDataLayer.touchBuffers, Call.isTouch]

theorem touchBuffers_count (N : Nat) (ut gpu lab : Bool) (c : Call)
    (hc : c = .InitRand ∨ c = .StartInternalThread) :
    (BasePrefetchingDataLayer.touchBuffers N ut gpu lab).count c = 0 ∧
    (BasePrefetchingSparseDataLayer.touchBuffers N gpu lab).count c = 0 := by
  have hnt : c.isTouch = false := by rcases hc with h | h <;> subst h <;> rfl
  obtain ⟨h1, h2⟩ := touchBuffers_all N ut gpu lab
  rw [List.all_eq_true] at h1 h2
  constructor
  · rw [List.count_eq_zero]
    intro hm
    have := h1 c hm
    rw [hnt] at this
    cases this
  · rw [List.count_eq_zero]
    intro hm
    have := h2 c hm
    rw [hnt] at this
    cases this

/-- C8 (random state, amended): the calls of `LayerSetUp` of a prefetching layer, dense or
sparse, begin with the transformer reset, `InitRand` and `DataLayerSetUp`, and end with a
second `InitRand` immediately followed by `StartInternalThread`; `InitRand` is called
exactly twice and `StartInternalThread` exactly once, after both. -/
theorem init_rand_calls (N : Nat) (untransformed_top gpu : Bool) (top_size : Nat) :
    (∃ mid, (BasePrefetchingDataLayer.LayerSetUp N untransformed_top gpu top_size).2
        = [.resetDataTransformer, .InitRand, .DataLayerSetUp] ++ mid
          ++ [.InitRand, .StartInternalThread]
      ∧ mid.count .InitRand = 0 ∧ mid.count .StartInternalThread = 0) ∧
    (BasePrefetchingDataLayer.LayerSetUp N untransformed_top gpu top_size).2.count .InitRand = 2 ∧
    (BasePrefetchingDataLayer.LayerSetUp N untransformed_top gpu top_size).2.count
      .StartInternalThread = 1 ∧
    (∃ mid, (BasePrefetchingSparseDataLayer.LayerSetUp N gpu top_size).2
        = [.resetDataTransformer, .InitRand, .DataLayerSetUp] ++ mid
          ++ [.InitRand, .StartInternalThread]
      ∧ mid.count .InitRand = 0 ∧ mid.count .StartInternalThread = 0) ∧
    (BasePrefetchingSparseDataLayer.LayerSetUp N gpu top_size).2.count .InitRand = 2 ∧
    (BasePrefetchingSparseDataLayer.LayerSetUp N gpu top_size).2.count
      .StartInternalThread = 1 := by
  have c1 := touchBuffers_count N untransformed_top gpu (BaseDataLayer.LayerSetUp top_size).1
    .InitRand (Or.inl rfl)
  have c2 := touchBuffers_count N untransformed_top gpu (BaseDataLayer.LayerSetUp top_size).1
    .StartInternalThread (Or.inr rfl)
  have dense : ∃ mid, (BasePrefetchingDataLayer.LayerSetUp N untransformed_top gpu top_size).2
        = [.resetDataTransformer, .InitRand, .DataLayerSetUp] ++ mid
          ++ [.InitRand, .StartInternalThread]
      ∧ mid.count .InitRand = 0 ∧ mid.count .StartInternalThread = 0 :=
    ⟨_, rfl, c1.1, c2.1⟩
  have sparse : ∃ mid, (BasePrefetchingSparseDataLayer.LayerSetUp N gpu top_size).2
        = [.resetDataTransformer, .InitRand, .DataLayerSetUp] ++ mid
          ++ [.InitRand, .StartInternalThread]
      ∧ mid.count .InitRand = 0 ∧ mid.count .StartInternalThread = 0 :=
    ⟨_, rfl, c1.2, c2.2⟩
  refine ⟨dense, ?_, ?_, sparse, ?_, ?_⟩
  · obtain ⟨mid, e, c1, c2⟩ := dense
    rw [e]; simp [List.count_append, c1]
  · obtain ⟨mid, e, c1, c2⟩ := dense
    rw [e]; simp [List.count_append, c2]
  · obtain ⟨mid, e, c1, c2⟩ := sparse
    rw [e]; simp [List.count_append, c1]
  · obtain ⟨mid, e, c1, c2⟩ := sparse
    rw [e]; simp [List.count_append, c2]

/-- C8 (counterexample): `LayerSetUp` of a dense prefetching layer with a pool of 3, in CPU
mode, single stream, two output blobs, calls `InitRand` twice, not once. -/
theorem init_rand_calls_counterexample :
    ¬ ((BasePrefetchingDataLayer.LayerSetUp 3 false false 2).2.count .InitRand = 1) := by
  decide

end Caffe
